import Mathlib

/-!
Verification of the transaction runtime in `node/runtime/src/lib.rs`.

The runtime is shallowly embedded: every function of `impl Runtime` is
translated to an executable Lean definition over an explicit state value.
External collaborators that are not part of this crate (the hash function,
shard routing, account-id validation, the binary codec, the WASM executor,
and the `tx_stakes` bucket operations) are fields of an `Env` record, so all
theorems hold for every implementation of those collaborators.

Modelling conventions:
* Byte strings are `List Nat`.
* The column-prefixed byte keys (`account_id_to_bytes`, `callback_id_to_bytes`,
  `get_tx_stake_key`) are modelled by the structured type `StateKey`; the byte
  encodings are injective across shapes (distinct single-byte column prefixes
  `0..4`, and the separator byte `4` cannot occur inside a valid account id),
  so the structured type is faithful.
* A Rust panic (`expect`, `unreachable`, indexing out of bounds, `panic`) is
  modelled as `Option.none`; recoverable `Result::Err` is `Except.error`.
* Stored values are the typed `StateValue`; reading a key whose stored value
  has a different type models a decode failure, which the source treats as
  "not present" (`get` returns `None`).
-/

namespace NearRuntime

abbrev AccountId := String
abbrev Balance := Nat
abbrev Mana := Nat
abbrev Gas := Nat
abbrev BlockIndex := Nat
abbrev ShardId := Nat
abbrev Bytes := List Nat
abbrev CryptoHash := Bytes

/-- Abstract canonical public key (`primitives::signature::PublicKey`). -/
abbrev PublicKey := Nat

/-- `primitives::types::AccountingInfo`. -/
structure AccountingInfo where
  originator : AccountId
  contract_id : Option AccountId
  deriving DecidableEq, Repr

/-- `primitives::types::ManaAccounting`. -/
structure ManaAccounting where
  accounting_info : AccountingInfo
  mana_refund : Mana
  gas_used : Gas
  deriving DecidableEq, Repr

instance : Inhabited AccountingInfo := ⟨⟨"", none⟩⟩

/-- `ManaAccounting::default()`. -/
def ManaAccounting.default : ManaAccounting :=
  { accounting_info := ⟨"", none⟩, mana_refund := 0, gas_used := 0 }

/-- `primitives::types::AuthorityStake`. -/
structure AuthorityStake where
  account_id : AccountId
  public_key : PublicKey
  amount : Balance
  deriving DecidableEq, Repr

/-- Per account information stored in the state (struct `Account`). -/
structure Account where
  public_keys : List PublicKey
  nonce : Nat
  amount : Balance
  staked : Balance
  code_hash : CryptoHash
  deriving DecidableEq, Repr

/-- `CallbackInfo` from the `transaction` crate: `(callback_id, result_index, receiver)`. -/
structure CallbackInfo where
  id : Bytes
  result_index : Nat
  receiver : AccountId
  deriving DecidableEq, Repr

/-- `AsyncCall` from the `transaction` crate. -/
structure AsyncCall where
  method_name : Bytes
  args : Bytes
  amount : Balance
  mana : Mana
  callback : Option CallbackInfo
  accounting_info : AccountingInfo
  deriving DecidableEq, Repr

/-- `AsyncCall::new` (the `callback` field starts out empty). -/
def AsyncCall.new (method_name args : Bytes) (amount : Balance) (mana : Mana)
    (accounting_info : AccountingInfo) : AsyncCall :=
  { method_name, args, amount, mana, callback := none, accounting_info }

/-- `CallbackResult` from the `transaction` crate. -/
structure CallbackResult where
  info : CallbackInfo
  result : Option Bytes
  deriving DecidableEq, Repr

/-- Pending join record `Callback` from the `transaction` crate. -/
structure Callback where
  method_name : Bytes
  args : Bytes
  results : List (Option Bytes)
  result_counter : Nat
  mana : Mana
  callback : Option CallbackInfo
  accounting_info : AccountingInfo
  deriving DecidableEq, Repr

/-- `ReceiptBody` from the `transaction` crate. -/
inductive ReceiptBody where
  | NewCall : AsyncCall → ReceiptBody
  | Callback : CallbackResult → ReceiptBody
  | Refund : Balance → ReceiptBody
  | ManaAccounting : NearRuntime.ManaAccounting → ReceiptBody
  deriving DecidableEq, Repr

/-- `ReceiptTransaction` from the `transaction` crate. -/
structure ReceiptTransaction where
  originator : AccountId
  receiver : AccountId
  nonce : CryptoHash
  body : ReceiptBody
  deriving DecidableEq, Repr

/-- `TxTotalStake` (module `tx_stakes` is not under `src/`).
Modelled from the spec: a time-indexed bucket with an active stake, the block
of the last update, the available mana pool and the running gas debt.  All
operations on it are abstract fields of `Env` below, so theorems hold for any
regeneration / charging policy. -/
structure TxTotalStake where
  active_stake : Balance
  last_block : BlockIndex
  mana_pool : Mana
  gas_debt : Gas
  deriving DecidableEq, Repr

/-- Transaction bodies from the `transaction` crate (fields as constructed by
the tests in `lib.rs`). -/
structure SendMoneyTransaction where
  nonce : Nat
  originator : AccountId
  receiver : AccountId
  amount : Balance
  deriving DecidableEq, Repr

structure StakeTransaction where
  nonce : Nat
  originator : AccountId
  amount : Balance
  deriving DecidableEq, Repr

structure CreateAccountTransaction where
  nonce : Nat
  originator : AccountId
  new_account_id : AccountId
  amount : Balance
  public_key : Bytes
  deriving DecidableEq, Repr

structure DeployContractTransaction where
  nonce : Nat
  originator : AccountId
  contract_id : AccountId
  public_key : Bytes
  wasm_byte_array : Bytes
  deriving DecidableEq, Repr

structure SwapKeyTransaction where
  nonce : Nat
  originator : AccountId
  cur_key : Bytes
  new_key : Bytes
  deriving DecidableEq, Repr

structure FunctionCallTransaction where
  nonce : Nat
  originator : AccountId
  contract_id : AccountId
  method_name : Bytes
  args : Bytes
  amount : Balance
  deriving DecidableEq, Repr

inductive TransactionBody where
  | SendMoney : SendMoneyTransaction → TransactionBody
  | Stake : StakeTransaction → TransactionBody
  | FunctionCall : FunctionCallTransaction → TransactionBody
  | DeployContract : DeployContractTransaction → TransactionBody
  | CreateAccount : CreateAccountTransaction → TransactionBody
  | SwapKey : SwapKeyTransaction → TransactionBody
  deriving DecidableEq, Repr

/-- `TransactionBody::get_originator` (every body carries an `originator` field). -/
def TransactionBody.get_originator : TransactionBody → AccountId
  | .SendMoney t => t.originator
  | .Stake t => t.originator
  | .FunctionCall t => t.originator
  | .DeployContract t => t.originator
  | .CreateAccount t => t.originator
  | .SwapKey t => t.originator

/-- `TransactionBody::get_nonce` (every body carries a `nonce` field). -/
def TransactionBody.get_nonce : TransactionBody → Nat
  | .SendMoney t => t.nonce
  | .Stake t => t.nonce
  | .FunctionCall t => t.nonce
  | .DeployContract t => t.nonce
  | .CreateAccount t => t.nonce
  | .SwapKey t => t.nonce

/-- `SignedTransaction`: the signature is irrelevant to the runtime; the
transaction hash (`get_hash`) is carried as a field since the codec that
computes it lives outside this crate. -/
structure SignedTransaction where
  body : TransactionBody
  hash : CryptoHash
  deriving DecidableEq, Repr

/-- `TransactionStatus` from the `transaction` crate. -/
inductive TransactionStatus where
  | Unknown
  | Completed
  | Failed
  deriving DecidableEq, Repr

/-- `TransactionResult` from the `transaction` crate. -/
structure TransactionResult where
  status : TransactionStatus
  logs : List String
  receipts : List CryptoHash
  deriving DecidableEq, Repr

/-- `TransactionResult::default()`. -/
def TransactionResult.default : TransactionResult :=
  { status := .Unknown, logs := [], receipts := [] }

/-- `wasm::types::PromiseId`. -/
inductive PromiseId where
  | Receipt : Bytes → PromiseId
  | Callback : Bytes → PromiseId
  | Joiner : List Bytes → PromiseId
  deriving DecidableEq, Repr

/-- `wasm::types::ReturnData`. -/
inductive ReturnData where
  | Value : Bytes → ReturnData
  | None : ReturnData
  | Promise : PromiseId → ReturnData
  deriving DecidableEq, Repr

/-- `wasm::types::RuntimeContext` as constructed by the runtime. -/
structure RuntimeContext where
  balance : Balance
  received_amount : Balance
  sender_id : AccountId
  receiver_id : AccountId
  mana : Mana
  block_index : BlockIndex
  nonce : Bytes
  deriving DecidableEq, Repr

/-! ## The state layer

The staged state layer (`storage::StateDbUpdate`, not under `src/`).
Modelled from the spec: a two-level overlay (staged atop committed) over the
backing trie snapshot; `rollback` discards staged changes since the last
`commit`; `commit` promotes them. -/

/-- Structured state keys, modelling the column-prefixed byte keys
(`COL_ACCOUNT = 0`, `COL_CALLBACK = 1`, `COL_CODE = 2`, `COL_TX_STAKE = 3`
with separator byte `4`).  `contractData` models the account-scoped storage
keys used by the WASM ext bridge, which live in a key space disjoint from the
four columns above. -/
inductive StateKey where
  | account : AccountId → StateKey
  | callback : Bytes → StateKey
  | code : AccountId → StateKey
  | txStake : AccountId → Option AccountId → StateKey
  | contractData : AccountId → Bytes → StateKey
  deriving DecidableEq, Repr

/-- Typed stored values; reading a key whose value has another shape models a
codec decode failure, which the source maps to "not present". -/
inductive StateValue where
  | account : Account → StateValue
  | callback : Callback → StateValue
  | code : Bytes → StateValue
  | txStake : TxTotalStake → StateValue
  | data : Bytes → StateValue
  deriving DecidableEq, Repr

/-- Association-list lookup for overlays (`Option (Option _)`: outer `none`
means the overlay does not mention the key, inner `none` means a staged
removal). -/
def lookupOverlay (l : List (StateKey × Option StateValue)) (k : StateKey) :
    Option (Option StateValue) :=
  match l with
  | [] => none
  | (k1, v) :: t => if k1 = k then some v else lookupOverlay t k

/-- Association-list lookup for the backing snapshot. -/
def lookupBase (l : List (StateKey × StateValue)) (k : StateKey) :
    Option StateValue :=
  match l with
  | [] => none
  | (k1, v) :: t => if k1 = k then some v else lookupBase t k

structure StateDbUpdate where
  base : List (StateKey × StateValue)
  committed : List (StateKey × Option StateValue)
  staged : List (StateKey × Option StateValue)
  deriving DecidableEq, Repr

namespace StateDbUpdate

/-- `StateDbUpdate::new` over a trie snapshot. -/
def new (base : List (StateKey × StateValue)) : StateDbUpdate :=
  { base, committed := [], staged := [] }

/-- `get`: staged first, then committed overlay, then the snapshot. -/
def get (su : StateDbUpdate) (k : StateKey) : Option StateValue :=
  match lookupOverlay su.staged k with
  | some v => v
  | none =>
    match lookupOverlay su.committed k with
    | some v => v
    | none => lookupBase su.base k

/-- `set`: stages a write. -/
def set (su : StateDbUpdate) (k : StateKey) (v : StateValue) : StateDbUpdate :=
  { su with staged := (k, some v) :: su.staged }

/-- `remove`: stages a deletion. -/
def remove (su : StateDbUpdate) (k : StateKey) : StateDbUpdate :=
  { su with staged := (k, none) :: su.staged }

/-- `rollback`: discards staged changes since the last commit. -/
def rollback (su : StateDbUpdate) : StateDbUpdate :=
  { su with staged := [] }

/-- `commit`: promotes staged changes into the committed overlay. -/
def commit (su : StateDbUpdate) : StateDbUpdate :=
  { su with committed := su.staged ++ su.committed, staged := [] }

/-- `finalize` folds the committed overlay through the trie; two finalized
states have the same root exactly when this lookup function agrees on every
key. -/
def finalizeGet (su : StateDbUpdate) (k : StateKey) : Option StateValue :=
  (su.commit).get k

end StateDbUpdate

/-! Typed accessors corresponding to `get::<T>` / `set::<T>` at each column. -/

def getAccount (su : StateDbUpdate) (id : AccountId) : Option Account :=
  match su.get (.account id) with
  | some (.account a) => some a
  | _ => none

def setAccount (su : StateDbUpdate) (id : AccountId) (a : Account) : StateDbUpdate :=
  su.set (.account id) (.account a)

def getCallback (su : StateDbUpdate) (id : Bytes) : Option Callback :=
  match su.get (.callback id) with
  | some (.callback c) => some c
  | _ => none

def setCallback (su : StateDbUpdate) (id : Bytes) (c : Callback) : StateDbUpdate :=
  su.set (.callback id) (.callback c)

def getCode (su : StateDbUpdate) (id : AccountId) : Option Bytes :=
  match su.get (.code id) with
  | some (.code c) => some c
  | _ => none

def setCode (su : StateDbUpdate) (id : AccountId) (c : Bytes) : StateDbUpdate :=
  su.set (.code id) (.code c)

def getTxStake (su : StateDbUpdate) (o : AccountId) (c : Option AccountId) :
    Option TxTotalStake :=
  match su.get (.txStake o c) with
  | some (.txStake t) => some t
  | _ => none

def setTxStake (su : StateDbUpdate) (o : AccountId) (c : Option AccountId)
    (t : TxTotalStake) : StateDbUpdate :=
  su.set (.txStake o c) (.txStake t)

/-! ## External collaborators -/

/-- The result of one `executor::execute` invocation, together with the
effects the executed code produced through the ext bridge (`RuntimeExt`):
outbound receipts and callbacks registered by promise id, storage writes
under the receiver account (staged into the state during execution), and how
many nonces the bridge consumed. -/
structure WasmExecRes where
  gas_used : Gas
  mana_left : Mana
  logs : List String
  balance : Balance
  return_data : Except String ReturnData
  ext_receipts : List (Bytes × ReceiptTransaction)
  ext_callbacks : List (Bytes × Callback)
  ext_writes : List (Bytes × Option Bytes)
  ext_nonce_counter : Nat

/-- External collaborators of the runtime crate.  None of them is code under
`src/`: `hashFn`, `accountToShardId`, `isValidAccountId`, the codec functions
and the executor are other crates; the `ts` operations are the `tx_stakes`
module; `txMana` and `txContractId` are accessors of the `transaction` crate.
Modelled from the spec: each is an arbitrary function of the stated shape, so
every theorem below holds for every implementation. -/
structure Env where
  hashFn : Bytes → CryptoHash
  accountToShardId : AccountId → ShardId
  isValidAccountId : AccountId → Bool
  /-- `Decode::decode` for a `PublicKey`. -/
  decodePublicKey : Bytes → Except String PublicKey
  /-- `PublicKey::new` from raw bytes. -/
  publicKeyNew : Bytes → Except String PublicKey
  /-- `Encode::encode(&(public_key, wasm_byte_array))`. -/
  encodeDeployArgs : Bytes → Bytes → Except String Bytes
  /-- `Decode::decode` of deploy args into `(public_key_bytes, code)`. -/
  decodeDeployArgs : Bytes → Except String (Bytes × Bytes)
  /-- `TransactionBody::get_mana`. -/
  txMana : TransactionBody → Mana
  /-- `TransactionBody::get_contract_id`. -/
  txContractId : TransactionBody → Option AccountId
  /-- `executor::execute` (code, method_name, args, results, context). -/
  execute : Bytes → Bytes → Bytes → List (Option Bytes) → RuntimeContext →
    Except String WasmExecRes
  /-- `TxTotalStake::update(block_index, config)` with the default config. -/
  tsUpdate : TxTotalStake → BlockIndex → TxTotalStake
  /-- `TxTotalStake::available_mana(config)`. -/
  tsAvailableMana : TxTotalStake → Mana
  /-- `TxTotalStake::charge_mana(mana, config)`. -/
  tsChargeMana : TxTotalStake → Mana → TxTotalStake
  /-- `TxTotalStake::refund_mana_and_charge_gas(mana, gas, config)`. -/
  tsRefundManaChargeGas : TxTotalStake → Mana → Gas → TxTotalStake
  /-- `TxTotalStake::new(initial)`. -/
  tsNew : Nat → TxTotalStake
  /-- `TxTotalStake::add_active_stake(stake)`. -/
  tsAddActiveStake : TxTotalStake → Nat → TxTotalStake

/-- `fn system_account()`. -/
def system_account : AccountId := "system"

/-- `SYSTEM_METHOD_CREATE_ACCOUNT = b"_sys:create_account"` (opaque byte tag). -/
def SYSTEM_METHOD_CREATE_ACCOUNT : Bytes := [95, 115, 121, 115, 58, 99, 97]

/-- `SYSTEM_METHOD_DEPLOY = b"_sys:deploy"` (opaque byte tag, distinct from
`SYSTEM_METHOD_CREATE_ACCOUNT`). -/
def SYSTEM_METHOD_DEPLOY : Bytes := [95, 115, 121, 115, 58, 100]

/-- `primitives::utils::index_to_bytes`: the 8-byte encoding of a `u64`
index. -/
def index_to_bytes (i : Nat) : Bytes :=
  (List.range 8).map (fun k => i / 256 ^ (7 - k) % 256)

/-- `fn create_nonce_with_nonce(base, salt) = hash(base || index_to_bytes salt)`. -/
def create_nonce_with_nonce (env : Env) (base : CryptoHash) (salt : Nat) : CryptoHash :=
  env.hashFn (base ++ index_to_bytes salt)

/-! ## The `RuntimeExt` bridge

`crate::ext::RuntimeExt` is not under `src/`.  Modelled from the spec: it
accumulates the receipts and callbacks created by the executed WASM code
(keyed by promise id), and provides a monotonic nonce generator seeded from
the receipt nonce.  After `executor::execute` returns, its content is exactly
the `ext_` fields of `WasmExecRes`. -/

structure RuntimeExt where
  receipts : List (Bytes × ReceiptTransaction)
  callbacks : List (Bytes × Callback)
  nonce_base : CryptoHash
  nonce_counter : Nat
  deriving Repr

/-- Association lookup in the ext maps. -/
def lookupExt {α : Type} (l : List (Bytes × α)) (id : Bytes) : Option α :=
  match l with
  | [] => none
  | (i, v) :: t => if i = id then some v else lookupExt t id

/-- In-place update of one entry of an ext map. -/
def updateExt {α : Type} (l : List (Bytes × α)) (id : Bytes) (f : α → α) :
    List (Bytes × α) :=
  match l with
  | [] => []
  | (i, v) :: t => if i = id then (i, f v) :: t else (i, v) :: updateExt t id f

/-- `RuntimeExt::get_receipts`. -/
def RuntimeExt.get_receipts (ext : RuntimeExt) : List ReceiptTransaction :=
  ext.receipts.map (fun p => p.2)

/-- `RuntimeExt::create_nonce`: next derived nonce. -/
def RuntimeExt.create_nonce (env : Env) (ext : RuntimeExt) : CryptoHash :=
  env.hashFn (ext.nonce_base ++ index_to_bytes ext.nonce_counter)

/-- `RuntimeExt::flush_callbacks`: persists the callbacks created during
execution into the state. -/
def flush_callbacks (su : StateDbUpdate) (ext : RuntimeExt) : StateDbUpdate :=
  ext.callbacks.foldl (fun s p => setCallback s p.1 p.2) su

/-- Stages the account-scoped storage writes the executed code performed
through the ext bridge. -/
def applyExtWrites (su : StateDbUpdate) (receiver_id : AccountId)
    (ws : List (Bytes × Option Bytes)) : StateDbUpdate :=
  ws.foldl
    (fun s w =>
      match w.2 with
      | some v => s.set (.contractData receiver_id w.1) (.data v)
      | none => s.remove (.contractData receiver_id w.1))
    su

/-! ## Runtime functions (ports of `impl Runtime`) -/

/-- Loop body of `Runtime::try_charge_mana`: try each candidate accounting
info in order. -/
def try_charge_mana_loop (env : Env) (block_index : BlockIndex) (mana : Mana) :
    List AccountingInfo → StateDbUpdate → Option AccountingInfo × StateDbUpdate
  | [], su => (none, su)
  | ai :: rest, su =>
    match getTxStake su ai.originator ai.contract_id with
    | some ts =>
      let ts1 := env.tsUpdate ts block_index
      if mana ≤ env.tsAvailableMana ts1 then
        (some ai, setTxStake su ai.originator ai.contract_id (env.tsChargeMana ts1 mana))
      else try_charge_mana_loop env block_index mana rest su
    | none => try_charge_mana_loop env block_index mana rest su

/-- `Runtime::try_charge_mana`. -/
def try_charge_mana (env : Env) (su : StateDbUpdate) (block_index : BlockIndex)
    (originator : AccountId) (contract_id : Option AccountId) (mana : Mana) :
    Option AccountingInfo × StateDbUpdate :=
  let options : List AccountingInfo :=
    (match contract_id with
     | some cid => [{ originator := originator, contract_id := some cid }]
     | none => []) ++ [{ originator := originator, contract_id := none }]
  try_charge_mana_loop env block_index mana options su

/-- `Runtime::send_money`. -/
def send_money (env : Env) (su : StateDbUpdate) (transaction : SendMoneyTransaction)
    (hash : CryptoHash) (sender : Account) (accounting_info : AccountingInfo) :
    Except String (List ReceiptTransaction) × StateDbUpdate :=
  if transaction.amount = 0 then
    (.error "Sending 0 amount of money", su)
  else if transaction.amount ≤ sender.amount then
    let sender1 := { sender with amount := sender.amount - transaction.amount }
    let su1 := setAccount su transaction.originator sender1
    let receipt : ReceiptTransaction :=
      { originator := transaction.originator
        receiver := transaction.receiver
        nonce := create_nonce_with_nonce env hash 0
        body := .NewCall (AsyncCall.new [] [] transaction.amount 0 accounting_info) }
    (.ok [receipt], su1)
  else
    (.error "Account tries to send more than it has", su)

/-- `Runtime::staking`.  The source gates the success branch on
`sender.public_keys.is_empty()` and then reads `sender.public_keys[0]`, which
panics on an empty vector; the panic is the `none` outcome of the inner
match (reached exactly when the branch is taken). -/
def staking (su : StateDbUpdate) (body : StakeTransaction)
    (sender_account_id : AccountId) (sender : Account)
    (authority_proposals : List AuthorityStake) :
    Option (Except String (List ReceiptTransaction) × StateDbUpdate × List AuthorityStake) :=
  if body.amount ≤ sender.amount ∧ sender.public_keys.isEmpty then
    match sender.public_keys.head? with
    | some pk =>
      let props := authority_proposals ++
        [{ account_id := sender_account_id, public_key := pk, amount := body.amount }]
      let sender1 := { sender with
        amount := sender.amount - body.amount
        staked := sender.staked + body.amount }
      some (.ok [], setAccount su sender_account_id sender1, props)
    | none => none
  else if sender.amount < body.amount then
    some (.error "Account tries to stake more than it has", su, authority_proposals)
  else
    some (.error "Account already staked", su, authority_proposals)

/-- `Runtime::create_account`. -/
def create_account (env : Env) (su : StateDbUpdate)
    (body : CreateAccountTransaction) (hash : CryptoHash) (sender : Account)
    (accounting_info : AccountingInfo) :
    Except String (List ReceiptTransaction) × StateDbUpdate :=
  if ¬ env.isValidAccountId body.new_account_id then
    (.error "Account does not match requirements", su)
  else if body.amount ≤ sender.amount then
    let sender1 := { sender with amount := sender.amount - body.amount }
    let su1 := setAccount su body.originator sender1
    let receipt : ReceiptTransaction :=
      { originator := body.originator
        receiver := body.new_account_id
        nonce := create_nonce_with_nonce env hash 0
        body := .NewCall (AsyncCall.new SYSTEM_METHOD_CREATE_ACCOUNT body.public_key
          body.amount 0 accounting_info) }
    (.ok [receipt], su1)
  else
    (.error "Account tries to create new account with more than it has", su)

/-- `Runtime::swap_key`. -/
def swap_key (env : Env) (su : StateDbUpdate) (body : SwapKeyTransaction)
    (account : Account) : Except String (List ReceiptTransaction) × StateDbUpdate :=
  match env.decodePublicKey body.cur_key with
  | .error _ => (.error "cannot decode public key", su)
  | .ok cur_key =>
    match env.decodePublicKey body.new_key with
    | .error _ => (.error "cannot decode public key", su)
    | .ok new_key =>
      let kept := account.public_keys.filter (fun x => x ≠ cur_key)
      if kept.length = account.public_keys.length then
        (.error "Account does not have public key", su)
      else
        let account1 := { account with public_keys := kept ++ [new_key] }
        (.ok [], setAccount su body.originator account1)

/-- `Runtime::deploy`. -/
def deploy (env : Env) (body : DeployContractTransaction) (hash : CryptoHash)
    (accounting_info : AccountingInfo) : Except String (List ReceiptTransaction) :=
  match env.encodeDeployArgs body.public_key body.wasm_byte_array with
  | .error _ => .error "cannot encode args"
  | .ok args =>
    let receipt : ReceiptTransaction :=
      { originator := body.originator
        receiver := body.contract_id
        nonce := create_nonce_with_nonce env hash 0
        body := .NewCall (AsyncCall.new SYSTEM_METHOD_DEPLOY args 0 0 accounting_info) }
    .ok [receipt]

/-- `Runtime::call_function`. -/
def call_function (env : Env) (su : StateDbUpdate)
    (transaction : FunctionCallTransaction) (hash : CryptoHash) (sender : Account)
    (accounting_info : AccountingInfo) (mana : Mana) :
    Except String (List ReceiptTransaction) × StateDbUpdate :=
  if transaction.amount ≤ sender.amount then
    let sender1 := { sender with amount := sender.amount - transaction.amount }
    let su1 := setAccount su transaction.originator sender1
    let receipt : ReceiptTransaction :=
      { originator := transaction.originator
        receiver := transaction.contract_id
        nonce := create_nonce_with_nonce env hash 0
        body := .NewCall (AsyncCall.new transaction.method_name transaction.args
          transaction.amount (mana - 1) accounting_info) }
    (.ok [receipt], su1)
  else
    (.error "Account tries to call some contract with more than it has", su)

/-- `Runtime::apply_signed_transaction`.  The `none` outcome models a panic
inside a dispatch arm (only the staking arm can panic). -/
def apply_signed_transaction (env : Env) (su : StateDbUpdate)
    (block_index : BlockIndex) (transaction : SignedTransaction)
    (authority_proposals : List AuthorityStake) :
    Option (Except String (List ReceiptTransaction) × StateDbUpdate × List AuthorityStake) :=
  let sender_account_id := transaction.body.get_originator
  if ¬ env.isValidAccountId sender_account_id then
    some (.error "Invalid originator account_id", su, authority_proposals)
  else
    match getAccount su sender_account_id with
    | none => some (.error "sender does not exist", su, authority_proposals)
    | some sender =>
      if transaction.body.get_nonce ≤ sender.nonce then
        some (.error "Transaction nonce must be larger than sender nonce", su,
          authority_proposals)
      else
        let sender1 := { sender with nonce := transaction.body.get_nonce }
        let su1 := setAccount su sender_account_id sender1
        let contract_id := env.txContractId transaction.body
        let bad_contract : Bool :=
          match contract_id with
          | some cid => ! env.isValidAccountId cid
          | none => false
        if bad_contract then
          some (.error "Invalid contract_id", su1, authority_proposals)
        else
          let mana := env.txMana transaction.body
          match try_charge_mana env su1 block_index sender_account_id contract_id mana with
          | (none, su2) => some (.error "sender does not have enough mana", su2,
              authority_proposals)
          | (some accounting_info, su2) =>
            match transaction.body with
            | .SendMoney t =>
              let r := send_money env su2 t transaction.hash sender1 accounting_info
              some (r.1, r.2, authority_proposals)
            | .Stake t =>
              staking su2 t sender_account_id sender1 authority_proposals
            | .FunctionCall t =>
              let r := call_function env su2 t transaction.hash sender1 accounting_info mana
              some (r.1, r.2, authority_proposals)
            | .DeployContract t =>
              some (deploy env t transaction.hash accounting_info, su2, authority_proposals)
            | .CreateAccount t =>
              let r := create_account env su2 t transaction.hash sender1 accounting_info
              some (r.1, r.2, authority_proposals)
            | .SwapKey t =>
              let r := swap_key env su2 t sender1
              some (r.1, r.2, authority_proposals)

/-- `Runtime::deposit`. -/
def deposit (su : StateDbUpdate) (amount : Balance) (receiver_id : AccountId)
    (receiver : Account) : Except String (List ReceiptTransaction) × StateDbUpdate :=
  let receiver1 := { receiver with amount := receiver.amount + amount }
  (.ok [], setAccount su receiver_id receiver1)

/-- `Runtime::system_create_account`. -/
def system_create_account (env : Env) (su : StateDbUpdate) (call : AsyncCall)
    (account_id : AccountId) : Except String (List ReceiptTransaction) × StateDbUpdate :=
  if ¬ env.isValidAccountId account_id then
    (.error "Account does not match requirements", su)
  else
    match env.publicKeyNew call.args with
    | .error e => (.error e, su)
    | .ok public_key =>
      let new_account : Account :=
        { public_keys := [public_key], nonce := 0, amount := call.amount,
          staked := 0, code_hash := env.hashFn [] }
      let su1 := setAccount su account_id new_account
      let tx_total_stake := env.tsAddActiveStake (env.tsNew 0) 100
      (.ok [], setTxStake su1 account_id none tx_total_stake)

/-- `Runtime::system_deploy`. -/
def system_deploy (env : Env) (su : StateDbUpdate) (call : AsyncCall)
    (account_id : AccountId) : Except String (List ReceiptTransaction) × StateDbUpdate :=
  match env.decodeDeployArgs call.args with
  | .error _ => (.error "cannot decode public key", su)
  | .ok (public_key_bytes, code) =>
    match env.publicKeyNew public_key_bytes with
    | .error e => (.error e, su)
    | .ok public_key =>
      let new_account : Account :=
        { public_keys := [public_key], nonce := 0, amount := call.amount,
          staked := 0, code_hash := env.hashFn code }
      let su1 := setAccount su account_id new_account
      (.ok [], setCode su1 account_id code)

/-- `Runtime::return_data_to_receipts`.  The `none` outcome models the
`expect` / `unreachable` panics.  The early return in the no-callback case
and the error returns skip `flush_callbacks`. -/
def return_data_to_receipts (env : Env) (su : StateDbUpdate) (ext : RuntimeExt)
    (return_data : ReturnData) (callback_info : Option CallbackInfo)
    (sender_id receiver_id : AccountId) :
    Option (Except String (List ReceiptTransaction) × StateDbUpdate) :=
  match callback_info with
  | none => some (.ok ext.get_receipts, su)
  | some info =>
    let step : Option (Except String (Option CallbackResult × RuntimeExt)) :=
      match return_data with
      | .Value v => some (.ok (some ⟨info, some v⟩, ext))
      | .None => some (.ok (some ⟨info, some []⟩, ext))
      | .Promise (.Callback id) =>
        match lookupExt ext.callbacks id with
        | none => none
        | some cb =>
          if cb.callback.isSome then none
          else
            let cbs := updateExt ext.callbacks id (fun c => { c with callback := some info })
            some (.ok (none, { ext with callbacks := cbs }))
      | .Promise (.Receipt id) =>
        match lookupExt ext.receipts id with
        | none => none
        | some r =>
          match r.body with
          | .NewCall call =>
            if call.callback.isSome then some (.error "receipt already has callback")
            else
              let attach : ReceiptTransaction → ReceiptTransaction := fun rc =>
                match rc.body with
                | .NewCall c => { rc with body := .NewCall { c with callback := some info } }
                | _ => rc
              some (.ok (none, { ext with receipts := updateExt ext.receipts id attach }))
          | _ => none
      | .Promise (.Joiner _) => some (.error "return data is a non-callback promise")
    match step with
    | none => none
    | some (.error e) => some (.error e, su)
    | some (.ok (cres, ext1)) =>
      let tail : List ReceiptTransaction :=
        match cres with
        | some c =>
          let r : ReceiptTransaction :=
            { originator := receiver_id, receiver := sender_id,
              nonce := ext1.create_nonce env, body := .Callback c }
          [r]
        | none => []
      some (.ok (ext1.get_receipts ++ tail), flush_callbacks su ext1)

/-- `Runtime::apply_async_call`.  The two error propagations (`?` after
`execute` and after `return_data`) skip the final account persist; an error
returned by `return_data_to_receipts` does not (it is the value of the inner
block), so the receiver account is persisted with its old amount. -/
def apply_async_call (env : Env) (su : StateDbUpdate) (async_call : AsyncCall)
    (sender_id receiver_id : AccountId) (nonce : CryptoHash) (receiver : Account)
    (block_index : BlockIndex) (logs : List String) :
    Option (Except String (List ReceiptTransaction) × StateDbUpdate × Account ×
      ManaAccounting × List String) :=
  match getCode su receiver_id with
  | none => some (.error "cannot find contract code for account", su, receiver,
      ManaAccounting.default, logs)
  | some code =>
    let ma1 : ManaAccounting :=
      { gas_used := 0, mana_refund := async_call.mana,
        accounting_info := async_call.accounting_info }
    let ctx : RuntimeContext :=
      { balance := receiver.amount, received_amount := async_call.amount,
        sender_id, receiver_id, mana := async_call.mana, block_index, nonce }
    match env.execute code async_call.method_name async_call.args [] ctx with
    | .error _ => some (.error "wasm async call preparation failed", su, receiver,
        ma1, logs)
    | .ok res =>
      let ma2 := { ma1 with gas_used := res.gas_used, mana_refund := res.mana_left }
      let logs1 := logs ++ res.logs
      let su1 := applyExtWrites su receiver_id res.ext_writes
      let ext : RuntimeExt :=
        { receipts := res.ext_receipts, callbacks := res.ext_callbacks,
          nonce_base := nonce, nonce_counter := res.ext_nonce_counter }
      match res.return_data with
      | .error _ => some (.error "wasm async call execution failed", su1, receiver,
          ma2, logs1)
      | .ok rd =>
        match return_data_to_receipts env su1 ext rd async_call.callback
            sender_id receiver_id with
        | none => none
        | some (.error e, su2) =>
          some (.error e, setAccount su2 receiver_id receiver, receiver, ma2, logs1)
        | some (.ok receipts, su2) =>
          let receiver1 := { receiver with amount := res.balance }
          some (.ok receipts, setAccount su2 receiver_id receiver1, receiver1,
            ma2, logs1)

/-- `Runtime::apply_callback`.  When the join completes (`needs_removal`) and
the dispatch errs, the staged changes are rolled back and then the deletion
of the callback entry is committed; when it is incomplete the updated record
is persisted.  The `none` outcome models the out-of-bounds panic on
`results[result_index]` and panics inside `return_data_to_receipts`. -/
def apply_callback (env : Env) (su : StateDbUpdate) (callback_res : CallbackResult)
    (sender_id receiver_id : AccountId) (nonce : CryptoHash) (receiver : Account)
    (block_index : BlockIndex) (logs : List String) :
    Option (Except String (List ReceiptTransaction) × StateDbUpdate ×
      ManaAccounting × List String) :=
  let cbOpt := getCallback su callback_res.info.id
  match getCode su receiver_id with
  | none => some (.error "account does not have contract code", su,
      ManaAccounting.default, logs)
  | some code =>
    match cbOpt with
    | none => some (.error "callback id not found", su, ManaAccounting.default, logs)
    | some cb =>
      if callback_res.info.result_index < cb.results.length then
        let cb1 := { cb with
          results := cb.results.set callback_res.info.result_index callback_res.result
          result_counter := cb.result_counter + 1 }
        if cb1.result_counter = cb1.results.length then
          let ma1 : ManaAccounting :=
            { accounting_info := cb.accounting_info, mana_refund := cb.mana,
              gas_used := 0 }
          let ctx : RuntimeContext :=
            { balance := receiver.amount, received_amount := 0, sender_id,
              receiver_id, mana := cb.mana, block_index, nonce }
          match env.execute code cb.method_name cb.args cb1.results ctx with
          | .error _ =>
            let su1 := ((su.rollback).remove (.callback callback_res.info.id)).commit
            some (.error "wasm callback execution failed", su1, ma1, logs)
          | .ok res =>
            let ma2 := { ma1 with gas_used := res.gas_used, mana_refund := res.mana_left }
            let logs1 := logs ++ res.logs
            let su1 := applyExtWrites su receiver_id res.ext_writes
            let ext : RuntimeExt :=
              { receipts := res.ext_receipts, callbacks := res.ext_callbacks,
                nonce_base := nonce, nonce_counter := res.ext_nonce_counter }
            match res.return_data with
            | .error _ =>
              let su2 := ((su1.rollback).remove (.callback callback_res.info.id)).commit
              some (.error "wasm callback execution failed", su2, ma2, logs1)
            | .ok rd =>
              match return_data_to_receipts env su1 ext rd cb.callback
                  sender_id receiver_id with
              | none => none
              | some (.error e, su2) =>
                let su3 := ((su2.rollback).remove (.callback callback_res.info.id)).commit
                some (.error e, su3, ma2, logs1)
              | some (.ok rs, su2) =>
                let receiver1 := { receiver with amount := res.balance }
                let su3 := setAccount (su2.remove (.callback callback_res.info.id))
                  receiver_id receiver1
                some (.ok rs, su3, ma2, logs1)
        else
          some (.ok [], setCallback su callback_res.info.id cb1,
            ManaAccounting.default, logs)
      else none

/-- Outcome of the dispatch part of `Runtime::apply_receipt` (everything
before the compensating-receipt composition).  `early` models the two `?`
propagations in the existing-receiver deploy branch, which return from
`apply_receipt` without running the composition. -/
inductive ReceiptOutcome where
  | normal : Except String (List ReceiptTransaction) → Balance →
      Option CallbackInfo → Bool → ReceiptOutcome
  | early : String → ReceiptOutcome
  deriving Repr

/-- Dispatch part of `Runtime::apply_receipt` (lines before the composition
of compensating receipts): returns the inner result together with the values
of the `amount`, `callback_info`, `receiver_exists` and `mana_accounting`
locals. -/
def apply_receipt_core (env : Env) (su : StateDbUpdate)
    (receipt : ReceiptTransaction) (block_index : BlockIndex) (logs : List String) :
    Option (ReceiptOutcome × StateDbUpdate × ManaAccounting × List String) :=
  match getAccount su receipt.receiver with
  | some receiver =>
    match receipt.body with
    | .NewCall async_call =>
      let amount := async_call.amount
      if async_call.method_name.isEmpty then
        if 0 < amount then
          let r := deposit su async_call.amount receipt.receiver receiver
          some (.normal r.1 amount none true, r.2, ManaAccounting.default, logs)
        else
          some (.normal (.ok []) amount none true, su, ManaAccounting.default, logs)
      else if async_call.method_name = SYSTEM_METHOD_CREATE_ACCOUNT then
        let r : ReceiptTransaction :=
          { originator := system_account, receiver := receipt.originator,
            nonce := create_nonce_with_nonce env receipt.nonce 0,
            body := .Refund async_call.amount }
        some (.normal (.ok [r]) amount none true, su, ManaAccounting.default,
          logs ++ ["Account already exists"])
      else if async_call.method_name = SYSTEM_METHOD_DEPLOY then
        match env.decodeDeployArgs async_call.args with
        | .error _ => some (.early "cannot decode args", su, ManaAccounting.default, logs)
        | .ok (pub_key_bytes, code) =>
          match env.decodePublicKey pub_key_bytes with
          | .error _ => some (.early "cannot decode public key", su,
              ManaAccounting.default, logs)
          | .ok pub_key =>
            if receiver.public_keys.contains pub_key then
              let receiver1 := { receiver with code_hash := env.hashFn code }
              let su1 := setCode su receipt.receiver code
              let su2 := setAccount su1 receipt.receiver receiver1
              some (.normal (.ok []) amount none true, su2, ManaAccounting.default, logs)
            else
              some (.normal (.error "Account does not contain key") amount none true,
                su, ManaAccounting.default, logs)
      else
        match apply_async_call env su async_call receipt.originator receipt.receiver
            receipt.nonce receiver block_index logs with
        | none => none
        | some (result, su1, _receiver1, ma, logs1) =>
          some (.normal result amount async_call.callback true, su1, ma, logs1)
    | .Callback callback_res =>
      match apply_callback env su callback_res receipt.originator receipt.receiver
          receipt.nonce receiver block_index logs with
      | none => none
      | some (result, su1, ma, logs1) =>
        some (.normal result 0 (some callback_res.info) true, su1, ma, logs1)
    | .Refund refund_amount =>
      let receiver1 := { receiver with amount := receiver.amount + refund_amount }
      some (.normal (.ok []) 0 none true, setAccount su receipt.receiver receiver1,
        ManaAccounting.default, logs)
    | .ManaAccounting m =>
      match getTxStake su m.accounting_info.originator m.accounting_info.contract_id with
      | some ts =>
        let ts1 := env.tsUpdate ts block_index
        let ts2 := env.tsRefundManaChargeGas ts1 m.mana_refund m.gas_used
        some (.normal (.ok []) 0 none true,
          setTxStake su m.accounting_info.originator m.accounting_info.contract_id ts2,
          ManaAccounting.default, logs)
      | none => none
  | none =>
    match receipt.body with
    | .NewCall call =>
      let amount := call.amount
      if call.method_name = SYSTEM_METHOD_CREATE_ACCOUNT then
        let r := system_create_account env su call receipt.receiver
        some (.normal r.1 amount none false, r.2, ManaAccounting.default, logs)
      else if call.method_name = SYSTEM_METHOD_DEPLOY then
        let r := system_deploy env su call receipt.receiver
        some (.normal r.1 amount none false, r.2, ManaAccounting.default, logs)
      else
        some (.normal (.error "receiver does not exist") amount none false, su,
          ManaAccounting.default, logs)
    | _ =>
      some (.normal (.error "receiver does not exist") 0 none false, su,
        ManaAccounting.default, logs)

/-- `Runtime::apply_receipt`: dispatch, then composition of compensating
receipts (refund, null callback) and the mana-accounting receipt. -/
def apply_receipt (env : Env) (su : StateDbUpdate) (receipt : ReceiptTransaction)
    (new_receipts : List ReceiptTransaction) (block_index : BlockIndex)
    (logs : List String) :
    Option (Except String Unit × StateDbUpdate × List ReceiptTransaction × List String) :=
  match apply_receipt_core env su receipt block_index logs with
  | none => none
  | some (.early msg, su1, _ma, logs1) => some (.error msg, su1, new_receipts, logs1)
  | some (.normal result amount callback_info receiver_exists, su1, ma, logs1) =>
    let step1 : Except String Unit × List ReceiptTransaction :=
      match result with
      | .ok receipts => (.ok (), new_receipts ++ receipts)
      | .error s =>
        let nr1 :=
          if 0 < amount then
            new_receipts ++
              [{ originator := if receiver_exists then receipt.receiver else system_account,
                 receiver := receipt.originator,
                 nonce := create_nonce_with_nonce env receipt.nonce new_receipts.length,
                 body := .Refund amount }]
          else new_receipts
        let nr2 :=
          match callback_info with
          | some info =>
            nr1 ++
              [{ originator := receipt.receiver, receiver := info.receiver,
                 nonce := create_nonce_with_nonce env receipt.nonce nr1.length,
                 body := .Callback { info, result := none } }]
          | none => nr1
        (.error s, nr2)
    let nr3 :=
      if 0 < ma.mana_refund ∨ 0 < ma.gas_used then
        step1.2 ++
          [{ originator := receipt.receiver,
             receiver := ma.accounting_info.originator,
             nonce := create_nonce_with_nonce env receipt.nonce step1.2.length,
             body := .ManaAccounting ma }]
      else step1.2
    some (step1.1, su1, nr3, logs1)

/-! ## The apply driver -/

abbrev ReceiptMap := List (ShardId × List ReceiptTransaction)

/-- `HashMap` insert-or-push used when routing emitted receipts by shard. -/
def addReceiptToMap (m : ReceiptMap) (sid : ShardId) (r : ReceiptTransaction) :
    ReceiptMap :=
  match m with
  | [] => [(sid, [r])]
  | (s, rs) :: t =>
    if s = sid then (s, rs ++ [r]) :: t else (s, rs) :: addReceiptToMap t sid r

/-- `receipt.shard_id()`. -/
def receiptShard (env : Env) (r : ReceiptTransaction) : ShardId :=
  env.accountToShardId r.receiver

/-- `Runtime::process_transaction`. -/
def process_transaction (env : Env) (su : StateDbUpdate) (block_index : BlockIndex)
    (transaction : SignedTransaction) (new_receipts : ReceiptMap)
    (authority_proposals : List AuthorityStake) :
    Option (TransactionResult × StateDbUpdate × ReceiptMap × List AuthorityStake) :=
  match apply_signed_transaction env su block_index transaction authority_proposals with
  | none => none
  | some (.ok receipts, su1, props1) =>
    let nonces := receipts.map (fun r => r.nonce)
    let map1 := receipts.foldl (fun m r => addReceiptToMap m (receiptShard env r) r)
      new_receipts
    some ({ status := .Completed, logs := [], receipts := nonces },
      su1.commit, map1, props1)
  | some (.error s, su1, props1) =>
    some ({ status := .Failed, logs := ["Runtime error: " ++ s], receipts := [] },
      su1.rollback, new_receipts, props1)

/-- `Runtime::process_receipt`. -/
def process_receipt (env : Env) (su : StateDbUpdate) (shard_id : ShardId)
    (block_index : BlockIndex) (receipt : ReceiptTransaction)
    (new_receipts : ReceiptMap) :
    Option (TransactionResult × StateDbUpdate × ReceiptMap) :=
  if env.accountToShardId receipt.receiver = shard_id then
    match apply_receipt env su receipt [] block_index [] with
    | none => none
    | some (res, su1, tmp_receipts, logs1) =>
      let nonces := tmp_receipts.map (fun r => r.nonce)
      let map1 := tmp_receipts.foldl
        (fun m r => addReceiptToMap m (receiptShard env r) r) new_receipts
      match res with
      | .ok _ =>
        let tr : TransactionResult :=
          { status := .Completed, logs := logs1, receipts := nonces }
        some (tr, su1.commit, map1)
      | .error s =>
        let tr : TransactionResult :=
          { status := .Failed, logs := logs1 ++ ["Runtime error: " ++ s],
            receipts := nonces }
        some (tr, su1.rollback, map1)
  else
    let tr : TransactionResult :=
      { status := .Failed, logs := ["receipt sent to the wrong shard"],
        receipts := [] }
    some (tr, su, new_receipts)

structure ApplyResult where
  state : StateDbUpdate
  authority_proposals : List AuthorityStake
  new_receipts : ReceiptMap
  tx_result : List TransactionResult
  deriving Repr

/-- Receipt half of the `Runtime::apply` loop. -/
def apply_receipts_loop (env : Env) (shard_id : ShardId) (block_index : BlockIndex) :
    List ReceiptTransaction → StateDbUpdate → ReceiptMap → List TransactionResult →
    Option (StateDbUpdate × ReceiptMap × List TransactionResult)
  | [], su, m, trs => some (su, m, trs)
  | r :: rest, su, m, trs =>
    match process_receipt env su shard_id block_index r m with
    | none => none
    | some (tr, su1, m1) =>
      apply_receipts_loop env shard_id block_index rest su1 m1 (trs ++ [tr])

/-- Transaction half of the `Runtime::apply` loop. -/
def apply_transactions_loop (env : Env) (block_index : BlockIndex) :
    List SignedTransaction → StateDbUpdate → ReceiptMap → List AuthorityStake →
    List TransactionResult →
    Option (StateDbUpdate × ReceiptMap × List AuthorityStake × List TransactionResult)
  | [], su, m, props, trs => some (su, m, props, trs)
  | t :: rest, su, m, props, trs =>
    match process_transaction env su block_index t m props with
    | none => none
    | some (tr, su1, m1, props1) =>
      apply_transactions_loop env block_index rest su1 m1 props1 (trs ++ [tr])

/-- `Runtime::apply`: receipts from the previous block (already flattened
from their `ReceiptBlock`s), then the transactions of this block.  The final
state value stands for `finalize`: the root is a function of
`StateDbUpdate.finalizeGet` of this state. -/
def apply (env : Env) (base : List (StateKey × StateValue)) (shard_id : ShardId)
    (block_index : BlockIndex) (prev_receipts : List ReceiptTransaction)
    (transactions : List SignedTransaction) : Option ApplyResult :=
  let su0 := StateDbUpdate.new base
  match apply_receipts_loop env shard_id block_index prev_receipts su0 [] [] with
  | none => none
  | some (su1, m1, trs1) =>
    match apply_transactions_loop env block_index transactions su1 m1 [] trs1 with
    | none => none
    | some (su2, m2, props, trs2) =>
      let res : ApplyResult :=
        { state := su2, authority_proposals := props, new_receipts := m2,
          tx_result := trs2 }
      some res

/-! ## A concrete environment for evaluating the model -/

/-- A concrete instantiation of the external collaborators, used to evaluate
the runtime on explicit inputs.  Its WASM executor fails on every call. -/
def env0 : Env where
  hashFn := fun b => 7 :: b
  accountToShardId := fun _ => 0
  isValidAccountId := fun s => 2 ≤ s.length
  decodePublicKey := fun b =>
    match b with
    | [] => .error "cannot decode"
    | x :: _ => .ok x
  publicKeyNew := fun b =>
    match b with
    | [] => .error "bad key"
    | x :: _ => .ok x
  encodeDeployArgs := fun pk code => .ok (pk ++ code)
  decodeDeployArgs := fun b =>
    match b with
    | [] => .error "cannot decode"
    | x :: rest => .ok ([x], rest)
  txMana := fun _ => 1
  txContractId := fun _ => none
  execute := fun _ _ _ _ _ => .error "wasm failed"
  tsUpdate := fun t _ => t
  tsAvailableMana := fun t => t.mana_pool
  tsChargeMana := fun t m => { t with mana_pool := t.mana_pool - m }
  tsRefundManaChargeGas := fun t m g =>
    { t with mana_pool := t.mana_pool + m, gas_debt := t.gas_debt + g }
  tsNew := fun n => { active_stake := n, last_block := 0, mana_pool := 0, gas_debt := 0 }
  tsAddActiveStake := fun t n => { t with active_stake := t.active_stake + n }

/-! ## Concrete fixtures used by witnesses and counterexamples -/

/-- The concrete stake transaction body used to evaluate the staking path. -/
def c1_stake_body : StakeTransaction :=
  { nonce := 1, originator := "alice.near", amount := 10 }

/-- A sender with one public key and sufficient liquid balance. -/
def c1_sender_with_key : Account :=
  { public_keys := [1], nonce := 0, amount := 50, staked := 0, code_hash := [] }

/-- A sender with no public keys and sufficient liquid balance. -/
def c1_sender_no_key : Account :=
  { public_keys := [], nonce := 0, amount := 50, staked := 0, code_hash := [] }

/-- An existing receiver account for receipt fixtures. -/
def c10_account : Account :=
  { public_keys := [2], nonce := 0, amount := 30, staked := 0, code_hash := [] }

/-- A state in which `bob.near` exists. -/
def c10_state : StateDbUpdate :=
  StateDbUpdate.new [(.account "bob.near", .account c10_account)]

/-- A zero-amount empty-method `NewCall` receipt to `bob.near`. -/
def c10_receipt : ReceiptTransaction :=
  { originator := "alice.near", receiver := "bob.near", nonce := [3],
    body := .NewCall (AsyncCall.new [] [] 0 0 ⟨"alice.near", none⟩) }

/-- A tx-stake bucket with five units of available mana (under `env0`). -/
def c7_bucket : TxTotalStake :=
  { active_stake := 10, last_block := 0, mana_pool := 5, gas_debt := 0 }

/-- A state with one contract-scoped bucket for `alice.near` on `bob.near`. -/
def c7_state : StateDbUpdate :=
  StateDbUpdate.new [(.txStake "alice.near" (some "bob.near"), .txStake c7_bucket)]

/-- A funded sender account. -/
def c6_sender : Account :=
  { public_keys := [1], nonce := 0, amount := 100, staked := 0, code_hash := [] }

/-- A state holding the sender and its global mana bucket. -/
def c6_state : StateDbUpdate :=
  StateDbUpdate.new [(.account "alice.near", .account c6_sender),
    (.txStake "alice.near" none, .txStake c7_bucket)]

/-- A concrete `SendMoney` body. -/
def c6_tx_body : SendMoneyTransaction :=
  { nonce := 1, originator := "alice.near", receiver := "bob.near", amount := 10 }

/-- A receiver account owning contract code. -/
def c8_account : Account :=
  { public_keys := [2], nonce := 0, amount := 30, staked := 0, code_hash := [1] }

/-- A state holding the receiver account and its code blob. -/
def c8_state : StateDbUpdate :=
  StateDbUpdate.new [(.account "bob.near", .account c8_account),
    (.code "bob.near", .code [1])]

/-- An async-call receipt carrying three mana whose execution will fail. -/
def c8_receipt : ReceiptTransaction :=
  { originator := "alice.near", receiver := "bob.near", nonce := [4],
    body := .NewCall { method_name := [1],
                       args := [],
                       amount := 0,
                       mana := 3,
                       callback := none,
                       accounting_info := ⟨"alice.near", none⟩ } }

/-- The mana accounting accumulated by the failing call above. -/
def c8_ma : ManaAccounting :=
  { accounting_info := ⟨"alice.near", none⟩, mana_refund := 3, gas_used := 0 }

/-- A pending callback awaiting two results. -/
def c4_callback : Callback :=
  { method_name := [1], args := [], results := [none, none], result_counter := 0,
    mana := 0, callback := none, accounting_info := ⟨"alice.near", none⟩ }

/-- A state holding the receiver account, its code and the pending callback. -/
def c4_state : StateDbUpdate :=
  StateDbUpdate.new [(.account "bob.near", .account c8_account),
    (.code "bob.near", .code [1]), (.callback [5], .callback c4_callback)]

/-- The first arriving callback result. -/
def c4_cr : CallbackResult := { info := ⟨[5], 0, "alice.near"⟩, result := some [9] }

/-- A one-slot callback whose next result completes the join. -/
def c2_callback : Callback :=
  { method_name := [1], args := [], results := [none], result_counter := 0,
    mana := 0, callback := none, accounting_info := ⟨"alice.near", none⟩ }

/-- A snapshot holding the receiver, its code and the one-slot callback. -/
def c2_base : List (StateKey × StateValue) :=
  [(.account "bob.near", .account c8_account), (.code "bob.near", .code [1]),
   (.callback [5], .callback c2_callback)]

/-- The callback-result receipt that completes the join (and whose dispatch
fails under `env0`, whose executor always errs). -/
def c2_receipt : ReceiptTransaction :=
  { originator := "alice.near", receiver := "bob.near", nonce := [4],
    body := .Callback { info := ⟨[5], 0, "alice.near"⟩, result := none } }

/-- A sender whose stored nonce is already ahead of the transaction nonce. -/
def c3_stale_sender : Account :=
  { public_keys := [1], nonce := 5, amount := 100, staked := 0, code_hash := [] }

def c3_state : StateDbUpdate :=
  StateDbUpdate.new [(.account "alice.near", .account c3_stale_sender)]

/-- The receipt emitted by the concrete successful SendMoney run. -/
def c3_receipt : ReceiptTransaction :=
  { originator := "alice.near", receiver := "bob.near",
    nonce := [7, 9, 0, 0, 0, 0, 0, 0, 0, 0],
    body := .NewCall { method_name := [],
                       args := [],
                       amount := 10,
                       mana := 0,
                       callback := none,
                       accounting_info := ⟨"alice.near", none⟩ } }

/-- The post-state of the concrete successful SendMoney run. -/
def c3_su2 : StateDbUpdate :=
  setAccount
    (setTxStake (setAccount c6_state "alice.near" { c6_sender with nonce := 1 })
      "alice.near" none { c7_bucket with mana_pool := 4 })
    "alice.near" { c6_sender with nonce := 1, amount := 90 }

/-! ## Basic lemmas about the state layer -/

theorem lookupOverlay_append (l1 l2 : List (StateKey × Option StateValue))
    (k : StateKey) :
    lookupOverlay (l1 ++ l2) k =
      match lookupOverlay l1 k with
      | some v => some v
      | none => lookupOverlay l2 k := by
  induction l1 with
  | nil => simp [lookupOverlay]
  | cons h t ih =>
    by_cases hk : h.1 = k
    · simp [lookupOverlay, hk]
    · simp [lookupOverlay, hk, ih]

/-- Committing does not change what `get` observes. -/
theorem StateDbUpdate.get_commit (su : StateDbUpdate) (k : StateKey) :
    (su.commit).get k = su.get k := by
  unfold StateDbUpdate.get StateDbUpdate.commit
  simp [lookupOverlay, lookupOverlay_append]
  cases lookupOverlay su.staged k <;> simp

theorem StateDbUpdate.get_set_same (su : StateDbUpdate) (k : StateKey)
    (v : StateValue) : (su.set k v).get k = some v := by
  simp [StateDbUpdate.get, StateDbUpdate.set, lookupOverlay]

theorem StateDbUpdate.get_set_ne (su : StateDbUpdate) (k k1 : StateKey)
    (v : StateValue) (h : k1 ≠ k) : (su.set k1 v).get k = su.get k := by
  simp [StateDbUpdate.get, StateDbUpdate.set, lookupOverlay, h]

theorem StateDbUpdate.get_remove_same (su : StateDbUpdate) (k : StateKey) :
    (su.remove k).get k = none := by
  simp [StateDbUpdate.get, StateDbUpdate.remove, lookupOverlay]

theorem StateDbUpdate.get_remove_ne (su : StateDbUpdate) (k k1 : StateKey)
    (h : k1 ≠ k) : (su.remove k1).get k = su.get k := by
  simp [StateDbUpdate.get, StateDbUpdate.remove, lookupOverlay, h]

/-! Lemmas about the typed accessors at distinct keys. -/

theorem getTxStake_setTxStake_same (su : StateDbUpdate) (o : AccountId)
    (c : Option AccountId) (t : TxTotalStake) :
    getTxStake (setTxStake su o c t) o c = some t := by
  simp [getTxStake, setTxStake, StateDbUpdate.get_set_same]

theorem getTxStake_setTxStake_ne (su : StateDbUpdate) (o o2 : AccountId)
    (c c2 : Option AccountId) (t : TxTotalStake)
    (h : ¬(o = o2 ∧ c = c2)) :
    getTxStake (setTxStake su o c t) o2 c2 = getTxStake su o2 c2 := by
  have hk : StateKey.txStake o c ≠ StateKey.txStake o2 c2 := by
    intro he
    injection he with h1 h2
    exact h ⟨h1, h2⟩
  simp [getTxStake, setTxStake, StateDbUpdate.get_set_ne _ _ _ _ hk]

theorem getAccount_setAccount_same (su : StateDbUpdate) (id : AccountId)
    (a : Account) : getAccount (setAccount su id a) id = some a := by
  simp [getAccount, setAccount, StateDbUpdate.get_set_same]

theorem getAccount_setAccount_ne (su : StateDbUpdate) (id id2 : AccountId)
    (a : Account) (h : id ≠ id2) :
    getAccount (setAccount su id a) id2 = getAccount su id2 := by
  have hk : StateKey.account id ≠ StateKey.account id2 := by
    intro he
    injection he with h1
    exact h h1
  simp [getAccount, setAccount, StateDbUpdate.get_set_ne _ _ _ _ hk]

theorem getAccount_setTxStake (su : StateDbUpdate) (o : AccountId)
    (c : Option AccountId) (t : TxTotalStake) (id : AccountId) :
    getAccount (setTxStake su o c t) id = getAccount su id := by
  have hk : StateKey.txStake o c ≠ StateKey.account id := by
    intro he
    cases he
  simp [getAccount, setTxStake, StateDbUpdate.get_set_ne _ _ _ _ hk]

theorem getCallback_setCallback_same (su : StateDbUpdate) (id : Bytes)
    (c : Callback) : getCallback (setCallback su id c) id = some c := by
  simp [getCallback, setCallback, StateDbUpdate.get_set_same]

theorem getCallback_setAccount (su : StateDbUpdate) (aid : AccountId)
    (a : Account) (cid : Bytes) :
    getCallback (setAccount su aid a) cid = getCallback su cid := by
  have hk : StateKey.account aid ≠ StateKey.callback cid := by
    intro he
    cases he
  simp [getCallback, setAccount, StateDbUpdate.get_set_ne _ _ _ _ hk]

theorem getCallback_remove_callback_same (su : StateDbUpdate) (cid : Bytes) :
    getCallback (su.remove (.callback cid)) cid = none := by
  simp [getCallback, StateDbUpdate.get_remove_same]

theorem getCallback_commit (su : StateDbUpdate) (cid : Bytes) :
    getCallback su.commit cid = getCallback su cid := by
  simp [getCallback, StateDbUpdate.get_commit]

/-! ## Staging discipline

`StagesOnly su su1` says `su1` was obtained from `su` using only staged
operations (`set`, `remove`, `rollback`): the backing snapshot and the
committed overlay are untouched.  Every runtime function preserves this
except the rollback-then-commit deletion in `apply_callback`. -/

def StagesOnly (su su1 : StateDbUpdate) : Prop :=
  su1.base = su.base ∧ su1.committed = su.committed

theorem stagesOnly_refl (su : StateDbUpdate) : StagesOnly su su := ⟨rfl, rfl⟩

theorem stagesOnly_trans {a b c : StateDbUpdate} (h1 : StagesOnly a b)
    (h2 : StagesOnly b c) : StagesOnly a c :=
  ⟨h2.1.trans h1.1, h2.2.trans h1.2⟩

theorem stagesOnly_applyExtWrites (rid : AccountId) :
    ∀ (ws : List (Bytes × Option Bytes)) (su : StateDbUpdate),
      StagesOnly su (applyExtWrites su rid ws) := by
  intro ws
  induction ws with
  | nil => intro su; exact stagesOnly_refl su
  | cons w t ih =>
    intro su
    unfold applyExtWrites
    cases hw : w.2 with
    | some v =>
      simp only [List.foldl_cons, hw]
      exact stagesOnly_trans (⟨rfl, rfl⟩ : StagesOnly su _) (ih _)
    | none =>
      simp only [List.foldl_cons, hw]
      exact stagesOnly_trans (⟨rfl, rfl⟩ : StagesOnly su _) (ih _)

theorem stagesOnly_flush_callbacks (ext : RuntimeExt) (su : StateDbUpdate) :
    StagesOnly su (flush_callbacks su ext) := by
  unfold flush_callbacks
  generalize ext.callbacks = cbs
  induction cbs generalizing su with
  | nil => exact stagesOnly_refl su
  | cons c t ih =>
    simp only [List.foldl_cons]
    exact stagesOnly_trans (⟨rfl, rfl⟩ : StagesOnly su _) (ih _)

theorem stagesOnly_try_charge_mana_loop (env : Env) (block_index : BlockIndex)
    (mana : Mana) :
    ∀ (opts : List AccountingInfo) (su : StateDbUpdate),
      StagesOnly su (try_charge_mana_loop env block_index mana opts su).2 := by
  intro opts
  induction opts with
  | nil => intro su; exact stagesOnly_refl su
  | cons ai rest ih =>
    intro su
    unfold try_charge_mana_loop
    cases hts : getTxStake su ai.originator ai.contract_id with
    | none => exact ih su
    | some ts =>
      by_cases hok : mana ≤ env.tsAvailableMana (env.tsUpdate ts block_index)
      · simp only [hok, if_true]
        exact ⟨rfl, rfl⟩
      · simp only [hok, if_false]
        exact ih su

theorem stagesOnly_try_charge_mana (env : Env) (su : StateDbUpdate)
    (block_index : BlockIndex) (o : AccountId) (c : Option AccountId)
    (mana : Mana) :
    StagesOnly su (try_charge_mana env su block_index o c mana).2 := by
  unfold try_charge_mana
  exact stagesOnly_try_charge_mana_loop env block_index mana _ su

theorem stagesOnly_send_money (env : Env) (su : StateDbUpdate)
    (t : SendMoneyTransaction) (h : CryptoHash) (sender : Account)
    (ai : AccountingInfo) : StagesOnly su (send_money env su t h sender ai).2 := by
  unfold send_money
  split
  · exact stagesOnly_refl su
  split
  · exact ⟨rfl, rfl⟩
  · exact stagesOnly_refl su

theorem stagesOnly_staking (su : StateDbUpdate) (t : StakeTransaction)
    (id : AccountId) (sender : Account) (props : List AuthorityStake)
    (out : Except String (List ReceiptTransaction) × StateDbUpdate × List AuthorityStake)
    (h : staking su t id sender props = some out) : StagesOnly su out.2.1 := by
  unfold staking at h
  split at h
  · split at h
    · cases h
      exact ⟨rfl, rfl⟩
    · cases h
  · split at h
    · cases h
      exact stagesOnly_refl su
    · cases h
      exact stagesOnly_refl su

theorem stagesOnly_create_account (env : Env) (su : StateDbUpdate)
    (t : CreateAccountTransaction) (h : CryptoHash) (sender : Account)
    (ai : AccountingInfo) :
    StagesOnly su (create_account env su t h sender ai).2 := by
  unfold create_account
  split
  · exact stagesOnly_refl su
  split
  · exact ⟨rfl, rfl⟩
  · exact stagesOnly_refl su

theorem stagesOnly_swap_key (env : Env) (su : StateDbUpdate)
    (t : SwapKeyTransaction) (account : Account) :
    StagesOnly su (swap_key env su t account).2 := by
  unfold swap_key
  split
  · exact stagesOnly_refl su
  split
  · exact stagesOnly_refl su
  dsimp only
  split
  · exact stagesOnly_refl su
  · exact ⟨rfl, rfl⟩

theorem stagesOnly_call_function (env : Env) (su : StateDbUpdate)
    (t : FunctionCallTransaction) (h : CryptoHash) (sender : Account)
    (ai : AccountingInfo) (mana : Mana) :
    StagesOnly su (call_function env su t h sender ai mana).2 := by
  unfold call_function
  split
  · exact ⟨rfl, rfl⟩
  · exact stagesOnly_refl su

theorem stagesOnly_deposit (su : StateDbUpdate) (amount : Balance)
    (rid : AccountId) (receiver : Account) :
    StagesOnly su (deposit su amount rid receiver).2 := ⟨rfl, rfl⟩

theorem stagesOnly_system_create_account (env : Env) (su : StateDbUpdate)
    (call : AsyncCall) (id : AccountId) :
    StagesOnly su (system_create_account env su call id).2 := by
  unfold system_create_account
  split
  · exact stagesOnly_refl su
  split
  · exact stagesOnly_refl su
  · exact ⟨rfl, rfl⟩

theorem stagesOnly_system_deploy (env : Env) (su : StateDbUpdate)
    (call : AsyncCall) (id : AccountId) :
    StagesOnly su (system_deploy env su call id).2 := by
  unfold system_deploy
  split
  · exact stagesOnly_refl su
  split
  · exact stagesOnly_refl su
  · exact ⟨rfl, rfl⟩

theorem stagesOnly_return_data_to_receipts (env : Env) (su : StateDbUpdate)
    (ext : RuntimeExt) (rd : ReturnData) (cbi : Option CallbackInfo)
    (sid rid : AccountId)
    (out : Except String (List ReceiptTransaction) × StateDbUpdate)
    (h : return_data_to_receipts env su ext rd cbi sid rid = some out) :
    StagesOnly su out.2 := by
  unfold return_data_to_receipts at h
  cases cbi with
  | none =>
    cases h
    exact stagesOnly_refl su
  | some info =>
    cases rd with
    | Value v =>
      dsimp only at h
      cases h
      exact stagesOnly_flush_callbacks _ su
    | None =>
      dsimp only at h
      cases h
      exact stagesOnly_flush_callbacks _ su
    | Promise pid =>
      cases pid with
      | Callback id =>
        dsimp only at h
        cases hlk : lookupExt ext.callbacks id with
        | none =>
          rw [hlk] at h
          cases h
        | some cb =>
          rw [hlk] at h
          dsimp only at h
          by_cases hcs : cb.callback.isSome = true
          · rw [if_pos hcs] at h
            cases h
          · rw [if_neg hcs] at h
            cases h
            exact stagesOnly_flush_callbacks _ su
      | Receipt id =>
        dsimp only at h
        cases hlk : lookupExt ext.receipts id with
        | none =>
          rw [hlk] at h
          cases h
        | some r =>
          rw [hlk] at h
          dsimp only at h
          cases hb : r.body with
          | NewCall call =>
            rw [hb] at h
            dsimp only at h
            by_cases hcs : call.callback.isSome = true
            · rw [if_pos hcs] at h
              cases h
              exact stagesOnly_refl su
            · rw [if_neg hcs] at h
              cases h
              exact stagesOnly_flush_callbacks _ su
          | Callback cr =>
            rw [hb] at h
            cases h
          | Refund a =>
            rw [hb] at h
            cases h
          | ManaAccounting m =>
            rw [hb] at h
            cases h
      | Joiner ids =>
        dsimp only at h
        cases h
        exact stagesOnly_refl su

theorem stagesOnly_apply_async_call (env : Env) (su : StateDbUpdate)
    (ac : AsyncCall) (sid rid : AccountId) (nonce : CryptoHash)
    (receiver : Account) (block_index : BlockIndex) (logs : List String)
    (out : Except String (List ReceiptTransaction) × StateDbUpdate × Account ×
      ManaAccounting × List String)
    (h : apply_async_call env su ac sid rid nonce receiver block_index logs =
      some out) : StagesOnly su out.2.1 := by
  unfold apply_async_call at h
  split at h
  · cases h
    exact stagesOnly_refl su
  · dsimp only at h
    split at h
    · cases h
      exact stagesOnly_refl su
    · split at h
      · cases h
        exact stagesOnly_applyExtWrites _ _ su
      · split at h
        · cases h
        · cases h
          rename_i res hex x1 rd hrd x e su2 heq
          exact stagesOnly_trans (stagesOnly_applyExtWrites rid res.ext_writes su)
            (stagesOnly_trans (stagesOnly_return_data_to_receipts env _ _ rd
              ac.callback sid rid _ heq) ⟨rfl, rfl⟩)
        · cases h
          rename_i res hex x1 rd hrd x rs su2 heq
          exact stagesOnly_trans (stagesOnly_applyExtWrites rid res.ext_writes su)
            (stagesOnly_trans (stagesOnly_return_data_to_receipts env _ _ rd
              ac.callback sid rid _ heq) ⟨rfl, rfl⟩)

/-- `try_charge_mana` as an equation: the returned state only stages. -/
theorem stagesOnly_try_charge_mana_eq {env : Env} {su1 su2 : StateDbUpdate}
    {block_index : BlockIndex} {o : AccountId} {c : Option AccountId}
    {mana : Mana} {aiOpt : Option AccountingInfo}
    (h : try_charge_mana env su1 block_index o c mana = (aiOpt, su2)) :
    StagesOnly su1 su2 := by
  have hx := stagesOnly_try_charge_mana env su1 block_index o c mana
  rw [h] at hx
  exact hx

/-- `apply_signed_transaction` only stages. -/
theorem stagesOnly_apply_signed_transaction (env : Env) (su : StateDbUpdate)
    (block_index : BlockIndex) (tx : SignedTransaction)
    (props : List AuthorityStake)
    (out : Except String (List ReceiptTransaction) × StateDbUpdate × List AuthorityStake)
    (h : apply_signed_transaction env su block_index tx props = some out) :
    StagesOnly su out.2.1 := by
  obtain ⟨body, txh⟩ := tx
  unfold apply_signed_transaction at h
  cases body <;>
    (dsimp only at h
     split at h
     case isTrue =>
       cases h
       exact stagesOnly_refl su
     split at h
     case h_1 =>
       cases h
       exact stagesOnly_refl su
     split at h
     case isTrue =>
       cases h
       exact stagesOnly_refl su
     split at h
     case isTrue =>
       cases h
       exact stagesOnly_trans (⟨rfl, rfl⟩ : StagesOnly su _) (stagesOnly_refl _)
     split at h
     case h_1 =>
       cases h
       refine stagesOnly_trans ?_ (stagesOnly_try_charge_mana_eq (by assumption))
       exact ⟨rfl, rfl⟩)
  case mk.SendMoney.isFalse.h_2.isFalse.isFalse.h_2 =>
    cases h
    refine stagesOnly_trans
      (stagesOnly_trans ?_ (stagesOnly_try_charge_mana_eq (by assumption)))
      (stagesOnly_send_money _ _ _ _ _ _)
    exact ⟨rfl, rfl⟩
  case mk.Stake.isFalse.h_2.isFalse.isFalse.h_2 =>
    refine stagesOnly_trans
      (stagesOnly_trans ?_ (stagesOnly_try_charge_mana_eq (by assumption)))
      (stagesOnly_staking _ _ _ _ _ _ h)
    exact ⟨rfl, rfl⟩
  case mk.FunctionCall.isFalse.h_2.isFalse.isFalse.h_2 =>
    cases h
    refine stagesOnly_trans
      (stagesOnly_trans ?_ (stagesOnly_try_charge_mana_eq (by assumption)))
      (stagesOnly_call_function _ _ _ _ _ _ _)
    exact ⟨rfl, rfl⟩
  case mk.DeployContract.isFalse.h_2.isFalse.isFalse.h_2 =>
    cases h
    refine stagesOnly_trans ?_ (stagesOnly_try_charge_mana_eq (by assumption))
    exact ⟨rfl, rfl⟩
  case mk.CreateAccount.isFalse.h_2.isFalse.isFalse.h_2 =>
    cases h
    refine stagesOnly_trans
      (stagesOnly_trans ?_ (stagesOnly_try_charge_mana_eq (by assumption)))
      (stagesOnly_create_account _ _ _ _ _ _)
    exact ⟨rfl, rfl⟩
  case mk.SwapKey.isFalse.h_2.isFalse.isFalse.h_2 =>
    cases h
    refine stagesOnly_trans
      (stagesOnly_trans ?_ (stagesOnly_try_charge_mana_eq (by assumption)))
      (stagesOnly_swap_key _ _ _ _)
    exact ⟨rfl, rfl⟩

/-- The committed overlay after `apply_callback`: untouched, or extended by
exactly the committed deletion of the processed callback entry. -/
theorem apply_callback_committed (env : Env) (su : StateDbUpdate)
    (cr : CallbackResult) (sid rid : AccountId) (nonce : CryptoHash)
    (receiver : Account) (block_index : BlockIndex) (logs : List String)
    (out : Except String (List ReceiptTransaction) × StateDbUpdate ×
      ManaAccounting × List String)
    (h : apply_callback env su cr sid rid nonce receiver block_index logs =
      some out) :
    StagesOnly su out.2.1 ∨
      (out.2.1.base = su.base ∧
       out.2.1.committed = (StateKey.callback cr.info.id, none) :: su.committed ∧
       out.2.1.staged = []) := by
  unfold apply_callback at h
  split at h
  · cases h
    exact Or.inl (stagesOnly_refl su)
  dsimp only at h
  split at h
  · cases h
    exact Or.inl (stagesOnly_refl su)
  · split at h
    case isFalse => cases h
    split at h
    case isFalse =>
      cases h
      exact Or.inl ⟨rfl, rfl⟩
    split at h
    · cases h
      exact Or.inr ⟨rfl, rfl, rfl⟩
    · split at h
      · cases h
        refine Or.inr ⟨?_, ?_, rfl⟩
        · exact (stagesOnly_applyExtWrites rid _ su).1
        · exact congrArg (fun l => (StateKey.callback cr.info.id, none) :: l)
            (stagesOnly_applyExtWrites rid _ su).2
      · split at h
        · cases h
        · cases h
          have hso : StagesOnly su _ :=
            stagesOnly_trans (stagesOnly_applyExtWrites rid _ su)
              (stagesOnly_return_data_to_receipts _ _ _ _ _ _ _ _ (by assumption))
          refine Or.inr ⟨hso.1, ?_, rfl⟩
          exact congrArg (fun l => (StateKey.callback cr.info.id, none) :: l) hso.2
        · cases h
          have hso : StagesOnly su _ :=
            stagesOnly_trans (stagesOnly_applyExtWrites rid _ su)
              (stagesOnly_return_data_to_receipts _ _ _ _ _ _ _ _ (by assumption))
          exact Or.inl (stagesOnly_trans hso ⟨rfl, rfl⟩)

/-- The committed overlay after the dispatch part of `apply_receipt`. -/
theorem apply_receipt_core_committed (env : Env) (su : StateDbUpdate)
    (receipt : ReceiptTransaction) (block_index : BlockIndex)
    (logs : List String)
    (out : ReceiptOutcome × StateDbUpdate × ManaAccounting × List String)
    (h : apply_receipt_core env su receipt block_index logs = some out) :
    StagesOnly su out.2.1 ∨
      (∃ cr, receipt.body = .Callback cr ∧
       out.2.1.base = su.base ∧
       out.2.1.committed = (StateKey.callback cr.info.id, none) :: su.committed ∧
       out.2.1.staged = []) := by
  unfold apply_receipt_core at h
  split at h
  · split at h
    · -- NewCall to an existing receiver
      dsimp only at h
      split at h
      · split at h
        · cases h
          exact Or.inl ⟨rfl, rfl⟩
        · cases h
          exact Or.inl (stagesOnly_refl su)
      split at h
      · cases h
        exact Or.inl (stagesOnly_refl su)
      split at h
      · split at h
        · cases h
          exact Or.inl (stagesOnly_refl su)
        · split at h
          · cases h
            exact Or.inl (stagesOnly_refl su)
          · split at h
            · cases h
              exact Or.inl ⟨rfl, rfl⟩
            · cases h
              exact Or.inl (stagesOnly_refl su)
      · split at h
        · cases h
        · cases h
          exact Or.inl
            (stagesOnly_apply_async_call _ _ _ _ _ _ _ _ _ _ (by assumption))
    · -- Callback to an existing receiver
      rename_i cr hbody
      split at h
      · cases h
      · cases h
        rcases apply_callback_committed _ _ _ _ _ _ _ _ _ _ (by assumption) with
          hso | ⟨hb, hc, hs⟩
        · exact Or.inl hso
        · exact Or.inr ⟨cr, hbody, hb, hc, hs⟩
    · -- Refund
      cases h
      exact Or.inl ⟨rfl, rfl⟩
    · -- ManaAccounting
      split at h
      · cases h
        exact Or.inl ⟨rfl, rfl⟩
      · cases h
  · -- receiver absent
    split at h
    · dsimp only at h
      split at h
      · cases h
        exact Or.inl (stagesOnly_system_create_account _ _ _ _)
      split at h
      · cases h
        exact Or.inl (stagesOnly_system_deploy _ _ _ _)
      · cases h
        exact Or.inl (stagesOnly_refl su)
    · cases h
      exact Or.inl (stagesOnly_refl su)

/-- The committed overlay after `apply_receipt`. -/
theorem apply_receipt_committed (env : Env) (su : StateDbUpdate)
    (receipt : ReceiptTransaction) (nr : List ReceiptTransaction)
    (block_index : BlockIndex) (logs : List String)
    (out : Except String Unit × StateDbUpdate × List ReceiptTransaction × List String)
    (h : apply_receipt env su receipt nr block_index logs = some out) :
    StagesOnly su out.2.1 ∨
      (∃ cr, receipt.body = .Callback cr ∧
       out.2.1.base = su.base ∧
       out.2.1.committed = (StateKey.callback cr.info.id, none) :: su.committed ∧
       out.2.1.staged = []) := by
  unfold apply_receipt at h
  split at h
  · cases h
  · cases h
    rcases apply_receipt_core_committed _ _ _ _ _ _ (by assumption) with
      hso | ⟨cr, hbody, hb, hc, hs⟩
    · exact Or.inl hso
    · exact Or.inr ⟨cr, hbody, hb, hc, hs⟩
  · cases h
    rcases apply_receipt_core_committed _ _ _ _ _ _ (by assumption) with
      hso | ⟨cr, hbody, hb, hc, hs⟩
    · exact Or.inl hso
    · exact Or.inr ⟨cr, hbody, hb, hc, hs⟩

/-! ## C7 — mana charging order and effect -/

/-- The charging loop never creates a bucket: a key that has no bucket still
has none afterwards. -/
theorem try_charge_mana_loop_no_create (env : Env) (block_index : BlockIndex)
    (mana : Mana) (o2 : AccountId) (c2 : Option AccountId) :
    ∀ (opts : List AccountingInfo) (su : StateDbUpdate),
      getTxStake su o2 c2 = none →
      getTxStake (try_charge_mana_loop env block_index mana opts su).2 o2 c2 = none := by
  intro opts
  induction opts with
  | nil => intro su hnone; simpa [try_charge_mana_loop] using hnone
  | cons ai rest ih =>
    intro su hnone
    unfold try_charge_mana_loop
    cases hts : getTxStake su ai.originator ai.contract_id with
    | none => simpa [hts] using ih su hnone
    | some ts =>
      by_cases hok : mana ≤ env.tsAvailableMana (env.tsUpdate ts block_index)
      · by_cases hsame : ai.originator = o2 ∧ ai.contract_id = c2
        · rw [hsame.1, hsame.2] at hts
          rw [hts] at hnone
          cases hnone
        · simpa [hts, hok, getTxStake_setTxStake_ne _ _ _ _ _ _ hsame] using hnone
      · simpa [hts, hok] using ih su hnone

/-- C7: `try_charge_mana` examines at most two buckets in fixed order: the
contract-scoped bucket `(originator, Some contract_id)` first when a contract
id is given, then the global `(originator, None)`.  For each existing bucket
it first regenerates for the block, then charges exactly when
`available_mana >= mana`, persisting only that bucket and returning its
`AccountingInfo`; it returns `none` leaving the state untouched when no
existing bucket has enough mana, and it never creates a bucket. -/
theorem c7_try_charge_mana_order (env : Env) (su : StateDbUpdate)
    (block_index : BlockIndex) (o cid : AccountId) (c : Option AccountId)
    (mana : Mana) :
    (∀ ts, getTxStake su o (some cid) = some ts →
      mana ≤ env.tsAvailableMana (env.tsUpdate ts block_index) →
      try_charge_mana env su block_index o (some cid) mana =
        (some ⟨o, some cid⟩, setTxStake su o (some cid)
          (env.tsChargeMana (env.tsUpdate ts block_index) mana))) ∧
    (∀ ts2, (∀ ts, getTxStake su o (some cid) = some ts →
        env.tsAvailableMana (env.tsUpdate ts block_index) < mana) →
      getTxStake su o none = some ts2 →
      mana ≤ env.tsAvailableMana (env.tsUpdate ts2 block_index) →
      try_charge_mana env su block_index o (some cid) mana =
        (some ⟨o, none⟩, setTxStake su o none
          (env.tsChargeMana (env.tsUpdate ts2 block_index) mana))) ∧
    (∀ ts2, getTxStake su o none = some ts2 →
      mana ≤ env.tsAvailableMana (env.tsUpdate ts2 block_index) →
      try_charge_mana env su block_index o none mana =
        (some ⟨o, none⟩, setTxStake su o none
          (env.tsChargeMana (env.tsUpdate ts2 block_index) mana))) ∧
    ((∀ ts, getTxStake su o (some cid) = some ts →
        env.tsAvailableMana (env.tsUpdate ts block_index) < mana) →
      (∀ ts, getTxStake su o none = some ts →
        env.tsAvailableMana (env.tsUpdate ts block_index) < mana) →
      try_charge_mana env su block_index o (some cid) mana = (none, su)) ∧
    ((∀ ts, getTxStake su o none = some ts →
        env.tsAvailableMana (env.tsUpdate ts block_index) < mana) →
      try_charge_mana env su block_index o none mana = (none, su)) ∧
    (∀ o2 c2, getTxStake su o2 c2 = none →
      getTxStake (try_charge_mana env su block_index o c mana).2 o2 c2 = none) := by
  refine ⟨?_, ?_, ?_, ?_, ?_, ?_⟩
  · intro ts hts hok
    unfold try_charge_mana try_charge_mana_loop
    simp [hts, hok]
  · intro ts2 hmiss hts2 hok
    unfold try_charge_mana try_charge_mana_loop
    cases hts : getTxStake su o (some cid) with
    | none => simp [hts, hts2, hok, try_charge_mana_loop]
    | some ts =>
      have hlt := hmiss ts hts
      simp [hts, hts2, hok, Nat.not_le_of_lt hlt, try_charge_mana_loop]
  · intro ts2 hts2 hok
    unfold try_charge_mana try_charge_mana_loop
    simp [hts2, hok]
  · intro hmiss1 hmiss2
    unfold try_charge_mana try_charge_mana_loop
    cases hts : getTxStake su o (some cid) with
    | none =>
      cases hts2 : getTxStake su o none with
      | none => simp [hts, hts2, try_charge_mana_loop]
      | some ts2 =>
        have hlt := hmiss2 ts2 hts2
        simp [hts, hts2, Nat.not_le_of_lt hlt, try_charge_mana_loop]
    | some ts =>
      have hlt := hmiss1 ts hts
      cases hts2 : getTxStake su o none with
      | none => simp [hts, hts2, Nat.not_le_of_lt hlt, try_charge_mana_loop]
      | some ts2 =>
        have hlt2 := hmiss2 ts2 hts2
        simp [hts, hts2, Nat.not_le_of_lt hlt, Nat.not_le_of_lt hlt2,
          try_charge_mana_loop]
  · intro hmiss
    unfold try_charge_mana try_charge_mana_loop
    cases hts2 : getTxStake su o none with
    | none => simp [hts2, try_charge_mana_loop]
    | some ts2 =>
      have hlt := hmiss ts2 hts2
      simp [hts2, Nat.not_le_of_lt hlt, try_charge_mana_loop]
  · intro o2 c2 hnone
    unfold try_charge_mana
    exact try_charge_mana_loop_no_create env block_index mana o2 c2 _ su hnone

/-! ## C1 — the staking path -/

/-- C1: the claim says a Stake transaction with sufficient balance succeeds,
moving the amount from liquid to staked and appending an `AuthorityStake`.
The code contradicts this (and its own intent per the error message): the
success branch is gated on `sender.public_keys.is_empty()` and then reads
`sender.public_keys[0]`, so on every input `staking` either returns an error
or panics — it never succeeds.  Concretely: a funded sender with one key gets
the "already staked" error; a funded sender with no keys hits the panic
(`none`). -/
theorem c1_staking_never_succeeds :
    (∀ su body id sender props,
      staking su body id sender props = none ∨
      ∃ msg su2 props2, staking su body id sender props =
        some (.error msg, su2, props2)) ∧
    staking (StateDbUpdate.new []) c1_stake_body "alice.near" c1_sender_with_key [] =
      some (.error "Account already staked", StateDbUpdate.new [], []) ∧
    staking (StateDbUpdate.new []) c1_stake_body "alice.near" c1_sender_no_key [] =
      none := by
  refine ⟨?_, rfl, rfl⟩
  intro su body id sender props
  unfold staking
  rcases hk : sender.public_keys with _ | ⟨a, t⟩
  · by_cases h1 : body.amount ≤ sender.amount
    · left
      simp [hk, h1]
    · right
      have h : ¬(body.amount ≤ sender.amount ∧ ([] : List PublicKey).isEmpty = true) :=
        fun hc => h1 hc.1
      have h2 : sender.amount < body.amount := Nat.lt_of_not_le h1
      exact ⟨_, _, _, by rw [if_neg h, if_pos h2]⟩
  · have h : ¬(body.amount ≤ sender.amount ∧ (a :: t).isEmpty = true) := by simp
    right
    by_cases h2 : sender.amount < body.amount
    · exact ⟨_, _, _, by rw [if_neg h, if_pos h2]⟩
    · exact ⟨_, _, _, by rw [if_neg h, if_neg h2]⟩

/-! ## C9 — receipts routed to the wrong shard -/

/-- C9: a receipt whose receiver routes to a different shard yields a
`Failed` result with the single log line "receipt sent to the wrong shard",
the state is untouched (`apply_receipt` is never invoked), and no output
receipts are produced. -/
theorem c9_wrong_shard_no_mutation (env : Env) (su : StateDbUpdate)
    (shard_id : ShardId) (block_index : BlockIndex) (receipt : ReceiptTransaction)
    (new_receipts : ReceiptMap)
    (h : env.accountToShardId receipt.receiver ≠ shard_id) :
    process_receipt env su shard_id block_index receipt new_receipts =
      some ({ status := .Failed,
              logs := ["receipt sent to the wrong shard"],
              receipts := [] }, su, new_receipts) := by
  unfold process_receipt
  simp [h]

/-- Witness for C9 at a concrete input. -/
theorem c9_wrong_shard_no_mutation_witness :
    env0.accountToShardId "bob.near" ≠ 1 ∧
    process_receipt env0 (StateDbUpdate.new []) 1 0
      { originator := "alice.near", receiver := "bob.near", nonce := [3],
        body := .Refund 5 } [] =
      some ({ status := .Failed,
              logs := ["receipt sent to the wrong shard"],
              receipts := [] }, StateDbUpdate.new [], []) := by
  refine ⟨by decide, ?_⟩
  exact c9_wrong_shard_no_mutation env0 (StateDbUpdate.new []) 1 0
    { originator := "alice.near", receiver := "bob.near", nonce := [3],
      body := .Refund 5 } [] (by decide)

/-! ## C10 — zero-amount empty-method deposits are silent no-ops -/

/-- C10: a `NewCall` receipt with an empty method name and amount zero to an
existing receiver returns `Ok`, leaves the state exactly unchanged and emits
no output receipts. -/
theorem c10_zero_deposit_noop (env : Env) (su : StateDbUpdate)
    (receipt : ReceiptTransaction) (new_receipts : List ReceiptTransaction)
    (block_index : BlockIndex) (logs : List String) (acct : Account)
    (ac : AsyncCall)
    (hacct : getAccount su receipt.receiver = some acct)
    (hbody : receipt.body = .NewCall ac)
    (hmethod : ac.method_name = [])
    (hamount : ac.amount = 0) :
    apply_receipt env su receipt new_receipts block_index logs =
      some (.ok (), su, new_receipts, logs) := by
  unfold apply_receipt apply_receipt_core
  simp [hacct, hbody, hmethod, hamount, ManaAccounting.default]

/-- Witness for C10 at a concrete input. -/
theorem c10_zero_deposit_noop_witness :
    getAccount c10_state "bob.near" = some c10_account ∧
    apply_receipt env0 c10_state c10_receipt [] 0 [] =
      some (.ok (), c10_state, [], []) := by
  refine ⟨rfl, ?_⟩
  exact c10_zero_deposit_noop env0 c10_state c10_receipt [] 0 [] c10_account
    (AsyncCall.new [] [] 0 0 ⟨"alice.near", none⟩) rfl rfl rfl rfl

/-- Witness for C7 at a concrete input: a contract-scoped bucket with enough
mana is charged and its `AccountingInfo` returned. -/
theorem c7_try_charge_mana_order_witness :
    getTxStake c7_state "alice.near" (some "bob.near") = some c7_bucket ∧
    1 ≤ env0.tsAvailableMana (env0.tsUpdate c7_bucket 0) ∧
    try_charge_mana env0 c7_state 0 "alice.near" (some "bob.near") 1 =
      (some ⟨"alice.near", some "bob.near"⟩,
       setTxStake c7_state "alice.near" (some "bob.near")
         (env0.tsChargeMana (env0.tsUpdate c7_bucket 0) 1)) := by
  refine ⟨rfl, by decide, ?_⟩
  exact (c7_try_charge_mana_order env0 c7_state 0 "alice.near" "bob.near"
    (some "bob.near") 1).1 c7_bucket rfl (by decide)

/-! ## C6 — SendMoney -/

/-- C6: a `SendMoney` transaction that passes the common checks (valid and
existing originator, fresh nonce, valid contract id, mana charged) fails with
an error and no receipt when `amount == 0` or the sender balance is
insufficient; otherwise it debits the sender by `amount`, persists it, and
emits exactly one receipt to the stated receiver whose nonce is
`H(tx_hash || u64(0))` and whose body is a `NewCall` with empty method name,
empty args, the transferred amount and mana `0`. -/
theorem c6_send_money (env : Env) (su : StateDbUpdate) (block_index : BlockIndex)
    (props : List AuthorityStake) (t : SendMoneyTransaction) (txh : CryptoHash)
    (sender : Account) (ai : AccountingInfo) (su2 : StateDbUpdate)
    (hvalid : env.isValidAccountId t.originator = true)
    (hacct : getAccount su t.originator = some sender)
    (hnonce : sender.nonce < t.nonce)
    (hcid : ∀ cid, env.txContractId (.SendMoney t) = some cid →
      env.isValidAccountId cid = true)
    (hmana : try_charge_mana env (setAccount su t.originator { sender with nonce := t.nonce })
      block_index t.originator (env.txContractId (.SendMoney t))
      (env.txMana (.SendMoney t)) = (some ai, su2)) :
    (t.amount = 0 →
      apply_signed_transaction env su block_index ⟨.SendMoney t, txh⟩ props =
        some (.error "Sending 0 amount of money", su2, props)) ∧
    (t.amount ≠ 0 → sender.amount < t.amount →
      apply_signed_transaction env su block_index ⟨.SendMoney t, txh⟩ props =
        some (.error "Account tries to send more than it has", su2, props)) ∧
    (t.amount ≠ 0 → t.amount ≤ sender.amount →
      apply_signed_transaction env su block_index ⟨.SendMoney t, txh⟩ props =
        some (.ok [{ originator := t.originator,
                     receiver := t.receiver,
                     nonce := env.hashFn (txh ++ index_to_bytes 0),
                     body := .NewCall { method_name := [],
                                        args := [],
                                        amount := t.amount,
                                        mana := 0,
                                        callback := none,
                                        accounting_info := ai } }],
          setAccount su2 t.originator
            { sender with nonce := t.nonce, amount := sender.amount - t.amount },
          props)) := by
  have hnle : ¬ (TransactionBody.SendMoney t).get_nonce ≤ sender.nonce := by
    simp [TransactionBody.get_nonce]
    omega
  have hbad : (match env.txContractId (.SendMoney t) with
      | some cid => ! env.isValidAccountId cid
      | none => false) = false := by
    cases hc : env.txContractId (.SendMoney t) with
    | none => rfl
    | some cid => simp [hcid cid hc]
  refine ⟨?_, ?_, ?_⟩
  · intro h0
    unfold apply_signed_transaction
    simp only [TransactionBody.get_originator, TransactionBody.get_nonce] at *
    simp [hvalid, hacct, hnle, hbad, hmana, send_money, h0]
  · intro h0 hlt
    unfold apply_signed_transaction
    simp only [TransactionBody.get_originator, TransactionBody.get_nonce] at *
    simp [hvalid, hacct, hnle, hbad, hmana, send_money, h0, Nat.not_le_of_lt hlt]
  · intro h0 hle
    unfold apply_signed_transaction
    simp only [TransactionBody.get_originator, TransactionBody.get_nonce] at *
    simp [hvalid, hacct, hnle, hbad, hmana, send_money, h0, hle, AsyncCall.new,
      create_nonce_with_nonce]

/-- Witness for C6 at a concrete input. -/
theorem c6_send_money_witness :
    env0.isValidAccountId "alice.near" = true ∧
    getAccount c6_state "alice.near" = some c6_sender ∧
    c6_sender.nonce < c6_tx_body.nonce ∧
    (∃ ai su2, try_charge_mana env0
      (setAccount c6_state "alice.near" { c6_sender with nonce := c6_tx_body.nonce })
      0 "alice.near" (env0.txContractId (.SendMoney c6_tx_body))
      (env0.txMana (.SendMoney c6_tx_body)) = (some ai, su2)) ∧
    (∃ rcpt su3, apply_signed_transaction env0 c6_state 0 ⟨.SendMoney c6_tx_body, [9]⟩ [] =
      some (.ok [rcpt], su3, [])) := by
  refine ⟨rfl, rfl, by decide, ⟨⟨"alice.near", none⟩, _, rfl⟩, ?_⟩
  have heq := (c6_send_money env0 c6_state 0 [] c6_tx_body [9] c6_sender
    ⟨"alice.near", none⟩ _ rfl rfl (by decide) (by intro cid h; cases h) rfl).2.2
    (by decide) (by decide)
  exact ⟨_, _, heq⟩

/-! ## C3 — nonce check and nonce monotonicity -/

/-- The charging loop never touches account entries. -/
theorem try_charge_mana_loop_account (env : Env) (block_index : BlockIndex)
    (mana : Mana) :
    ∀ (opts : List AccountingInfo) (su : StateDbUpdate) (id : AccountId),
      getAccount (try_charge_mana_loop env block_index mana opts su).2 id =
        getAccount su id := by
  intro opts
  induction opts with
  | nil => intro su id; simp [try_charge_mana_loop]
  | cons ai rest ih =>
    intro su id
    unfold try_charge_mana_loop
    cases hts : getTxStake su ai.originator ai.contract_id with
    | none => simpa [hts] using ih su id
    | some ts =>
      by_cases hok : mana ≤ env.tsAvailableMana (env.tsUpdate ts block_index)
      · simp [hts, hok, getAccount_setTxStake]
      · simpa [hts, hok] using ih su id

/-- `try_charge_mana` never touches account entries. -/
theorem try_charge_mana_account (env : Env) (su : StateDbUpdate)
    (block_index : BlockIndex) (o : AccountId) (c : Option AccountId)
    (mana : Mana) (id : AccountId) :
    getAccount (try_charge_mana env su block_index o c mana).2 id =
      getAccount su id := by
  unfold try_charge_mana
  exact try_charge_mana_loop_account env block_index mana _ su id

/-- Forward case analysis of `apply_signed_transaction` for an existing
originator: the outcome is an error, a panic, or a success whose post-state
account carries the transaction nonce. -/
theorem asv_outcomes (env : Env) (su : StateDbUpdate) (block_index : BlockIndex)
    (body : TransactionBody) (txh : CryptoHash) (props : List AuthorityStake)
    (pre : Account) (hacct : getAccount su body.get_originator = some pre) :
    (∃ msg su4 props4, apply_signed_transaction env su block_index ⟨body, txh⟩ props =
      some (.error msg, su4, props4)) ∨
    apply_signed_transaction env su block_index ⟨body, txh⟩ props = none ∨
    (∃ rs su4 props4 post,
      apply_signed_transaction env su block_index ⟨body, txh⟩ props =
        some (.ok rs, su4, props4) ∧
      getAccount su4 body.get_originator = some post ∧
      post.nonce = body.get_nonce ∧ pre.nonce < body.get_nonce) := by
  by_cases hvalid : env.isValidAccountId body.get_originator = true
  case neg =>
    refine Or.inl ?_
    unfold apply_signed_transaction
    simp [hvalid]
  by_cases hn : body.get_nonce ≤ pre.nonce
  · refine Or.inl ?_
    unfold apply_signed_transaction
    simp [hvalid, hacct, hn]
  have hlt : pre.nonce < body.get_nonce := Nat.lt_of_not_le hn
  by_cases hbad : (match env.txContractId body with
      | some cid => ! env.isValidAccountId cid
      | none => false) = true
  · refine Or.inl ?_
    unfold apply_signed_transaction
    simp [hvalid, hacct, hn, hbad]
  rcases htc : try_charge_mana env
      (setAccount su body.get_originator { pre with nonce := body.get_nonce })
      block_index body.get_originator (env.txContractId body)
      (env.txMana body) with ⟨aiOpt, su3⟩
  have hbad2 : (match env.txContractId body with
      | some cid => ! env.isValidAccountId cid
      | none => false) = false := by
    cases hc : env.txContractId body with
    | none => rfl
    | some cid =>
      rw [hc] at hbad
      simpa using hbad
  have hpres : getAccount su3 body.get_originator =
      some { pre with nonce := body.get_nonce } := by
    have hx := try_charge_mana_account env
      (setAccount su body.get_originator { pre with nonce := body.get_nonce })
      block_index body.get_originator (env.txContractId body)
      (env.txMana body) body.get_originator
    rw [htc] at hx
    simpa [getAccount_setAccount_same] using hx
  cases aiOpt with
  | none =>
    refine Or.inl ?_
    unfold apply_signed_transaction
    simp [hvalid, hacct, hn, hbad2, htc]
  | some ai =>
    cases body with
    | SendMoney t =>
      simp only [TransactionBody.get_nonce, TransactionBody.get_originator]
        at htc hpres hacct hvalid hn hlt
      by_cases h0 : t.amount = 0
      · refine Or.inl ?_
        unfold apply_signed_transaction
        simp [hvalid, hacct, hn, hbad2, htc, send_money, h0,
          TransactionBody.get_nonce, TransactionBody.get_originator]
      by_cases hle2 : t.amount ≤ pre.amount
      · refine Or.inr (Or.inr ?_)
        unfold apply_signed_transaction
        simp [hvalid, hacct, hn, hbad2, htc, send_money, h0, hle2,
          getAccount_setAccount_same, hlt,
          TransactionBody.get_nonce, TransactionBody.get_originator]
        exact ⟨_, _, ⟨⟨rfl, rfl⟩, _, getAccount_setAccount_same _ _ _, rfl⟩⟩
      · refine Or.inl ?_
        unfold apply_signed_transaction
        simp [hvalid, hacct, hn, hbad2, htc, send_money, h0, hle2,
          TransactionBody.get_nonce, TransactionBody.get_originator]
    | Stake t =>
      simp only [TransactionBody.get_nonce, TransactionBody.get_originator]
        at htc hpres hacct hvalid hn hlt
      rcases hk : pre.public_keys with _ | ⟨a, tl⟩
      · rw [hk] at htc hpres
        by_cases hle2 : t.amount ≤ pre.amount
        · refine Or.inr (Or.inl ?_)
          unfold apply_signed_transaction
          simp [hvalid, hacct, hn, hbad2, htc, staking, hk, hle2,
            TransactionBody.get_nonce, TransactionBody.get_originator]
        · refine Or.inl ?_
          unfold apply_signed_transaction
          have h2 : pre.amount < t.amount := Nat.lt_of_not_le hle2
          simp [hvalid, hacct, hn, hbad2, htc, staking, hk, hle2, h2,
            TransactionBody.get_nonce, TransactionBody.get_originator]
      · rw [hk] at htc hpres
        by_cases h2 : pre.amount < t.amount
        · refine Or.inl ?_
          unfold apply_signed_transaction
          simp [hvalid, hacct, hn, hbad2, htc, staking, hk, h2,
            Nat.not_le_of_lt h2,
            TransactionBody.get_nonce, TransactionBody.get_originator]
        · refine Or.inl ?_
          unfold apply_signed_transaction
          simp [hvalid, hacct, hn, hbad2, htc, staking, hk, h2,
            TransactionBody.get_nonce, TransactionBody.get_originator]
    | FunctionCall t =>
      simp only [TransactionBody.get_nonce, TransactionBody.get_originator]
        at htc hpres hacct hvalid hn hlt
      by_cases hle2 : t.amount ≤ pre.amount
      · refine Or.inr (Or.inr ?_)
        unfold apply_signed_transaction
        simp [hvalid, hacct, hn, hbad2, htc, call_function, hle2,
          getAccount_setAccount_same, hlt,
          TransactionBody.get_nonce, TransactionBody.get_originator]
        exact ⟨_, _, ⟨⟨rfl, rfl⟩, _, getAccount_setAccount_same _ _ _, rfl⟩⟩
      · refine Or.inl ?_
        unfold apply_signed_transaction
        simp [hvalid, hacct, hn, hbad2, htc, call_function, hle2,
          TransactionBody.get_nonce, TransactionBody.get_originator]
    | DeployContract t =>
      simp only [TransactionBody.get_nonce, TransactionBody.get_originator]
        at htc hpres hacct hvalid hn hlt
      cases he : env.encodeDeployArgs t.public_key t.wasm_byte_array with
      | error e =>
        refine Or.inl ?_
        unfold apply_signed_transaction
        simp [hvalid, hacct, hn, hbad2, htc, deploy, he,
          TransactionBody.get_nonce, TransactionBody.get_originator]
      | ok args =>
        refine Or.inr (Or.inr ?_)
        unfold apply_signed_transaction
        simp [hvalid, hacct, hn, hbad2, htc, deploy, he, hpres, hlt,
          TransactionBody.get_nonce, TransactionBody.get_originator]
        exact ⟨_, _, ⟨⟨rfl, rfl⟩, _, hpres, rfl⟩⟩
    | CreateAccount t =>
      simp only [TransactionBody.get_nonce, TransactionBody.get_originator]
        at htc hpres hacct hvalid hn hlt
      by_cases hval2 : env.isValidAccountId t.new_account_id = true
      · by_cases hle2 : t.amount ≤ pre.amount
        · refine Or.inr (Or.inr ?_)
          unfold apply_signed_transaction
          simp [hvalid, hacct, hn, hbad2, htc, create_account, hval2, hle2,
            getAccount_setAccount_same, hlt,
            TransactionBody.get_nonce, TransactionBody.get_originator]
          exact ⟨_, _, ⟨⟨rfl, rfl⟩, _, getAccount_setAccount_same _ _ _, rfl⟩⟩
        · refine Or.inl ?_
          unfold apply_signed_transaction
          simp [hvalid, hacct, hn, hbad2, htc, create_account, hval2, hle2,
            TransactionBody.get_nonce, TransactionBody.get_originator]
      · refine Or.inl ?_
        unfold apply_signed_transaction
        simp [hvalid, hacct, hn, hbad2, htc, create_account, hval2,
          TransactionBody.get_nonce, TransactionBody.get_originator]
    | SwapKey t =>
      simp only [TransactionBody.get_nonce, TransactionBody.get_originator]
        at htc hpres hacct hvalid hn hlt
      cases hdec1 : env.decodePublicKey t.cur_key with
      | error e =>
        refine Or.inl ?_
        unfold apply_signed_transaction
        simp [hvalid, hacct, hn, hbad2, htc, swap_key, hdec1,
          TransactionBody.get_nonce, TransactionBody.get_originator]
      | ok cur_key =>
        cases hdec2 : env.decodePublicKey t.new_key with
        | error e =>
          refine Or.inl ?_
          unfold apply_signed_transaction
          simp [hvalid, hacct, hn, hbad2, htc, swap_key, hdec1, hdec2,
            TransactionBody.get_nonce, TransactionBody.get_originator]
        | ok new_key =>
          by_cases hka : ∀ a ∈ pre.public_keys, ¬ a = cur_key
          · refine Or.inl ?_
            unfold apply_signed_transaction
            simp [hvalid, hacct, hn, hbad2, htc, swap_key, hdec1, hdec2,
              TransactionBody.get_nonce, TransactionBody.get_originator]
            exact ⟨_, by rw [if_pos hka]⟩
          · refine Or.inr (Or.inr ?_)
            unfold apply_signed_transaction
            simp [hvalid, hacct, hn, hbad2, htc, swap_key, hdec1, hdec2, hka,
              getAccount_setAccount_same, hlt,
              TransactionBody.get_nonce, TransactionBody.get_originator]
            exact ⟨_, _, ⟨⟨rfl, rfl⟩, _, getAccount_setAccount_same _ _ _, rfl⟩⟩

/-- C3: if the transaction nonce is not above the stored nonce of an existing
originator, `apply_signed_transaction` errs leaving state and proposals
untouched; and every transaction that completes successfully (any body,
`DeployContract` and `SwapKey` included) leaves the originator account with
`nonce = tx.nonce`, strictly above the pre-state nonce. -/
theorem c3_nonce_monotonicity (env : Env) (su : StateDbUpdate)
    (block_index : BlockIndex) (body : TransactionBody) (txh : CryptoHash)
    (props : List AuthorityStake) :
    (∀ pre, getAccount su body.get_originator = some pre →
      body.get_nonce ≤ pre.nonce →
      ∃ msg, apply_signed_transaction env su block_index ⟨body, txh⟩ props =
        some (.error msg, su, props)) ∧
    (∀ rs su2 props2 pre,
      apply_signed_transaction env su block_index ⟨body, txh⟩ props =
        some (.ok rs, su2, props2) →
      getAccount su body.get_originator = some pre →
      ∃ post, getAccount su2 body.get_originator = some post ∧
        post.nonce = body.get_nonce ∧ pre.nonce < body.get_nonce) := by
  constructor
  · intro pre hacct hle
    by_cases hvalid : env.isValidAccountId body.get_originator = true
    · refine ⟨"Transaction nonce must be larger than sender nonce", ?_⟩
      unfold apply_signed_transaction
      simp [hvalid, hacct, hle]
    · refine ⟨"Invalid originator account_id", ?_⟩
      unfold apply_signed_transaction
      simp [hvalid]
  · intro rs su2 props2 pre h hacct
    rcases asv_outcomes env su block_index body txh props pre hacct with
      ⟨msg, su4, props4, heq⟩ | heq | ⟨rs4, su4, props4, post, heq, hpost, hn2, hlt⟩
    · rw [heq] at h
      simp at h
    · rw [heq] at h
      cases h
    · rw [heq] at h
      simp only [Option.some.injEq, Prod.mk.injEq] at h
      obtain ⟨-, h2, -⟩ := h
      exact ⟨post, h2 ▸ hpost, hn2, hlt⟩

/-- Witness for C3: a concrete stale-nonce rejection, and the concrete
successful SendMoney run with its post-state nonce. -/
theorem c3_nonce_monotonicity_witness :
    (getAccount c3_state "alice.near" = some c3_stale_sender ∧
     (TransactionBody.SendMoney c6_tx_body).get_nonce ≤ c3_stale_sender.nonce ∧
     ∃ msg, apply_signed_transaction env0 c3_state 0 ⟨.SendMoney c6_tx_body, [9]⟩ [] =
       some (.error msg, c3_state, [])) ∧
    (apply_signed_transaction env0 c6_state 0 ⟨.SendMoney c6_tx_body, [9]⟩ [] =
       some (.ok [c3_receipt], c3_su2, []) ∧
     ∃ post, getAccount c3_su2 "alice.near" = some post ∧
       post.nonce = (TransactionBody.SendMoney c6_tx_body).get_nonce ∧
       c6_sender.nonce < (TransactionBody.SendMoney c6_tx_body).get_nonce) := by
  have hsucc : apply_signed_transaction env0 c6_state 0 ⟨.SendMoney c6_tx_body, [9]⟩ [] =
      some (.ok [c3_receipt], c3_su2, []) := by rfl
  refine ⟨⟨rfl, by decide, ?_⟩, hsucc, ?_⟩
  · exact (c3_nonce_monotonicity env0 c3_state 0 (.SendMoney c6_tx_body) [9] []).1
      c3_stale_sender rfl (by decide)
  · exact (c3_nonce_monotonicity env0 c6_state 0 (.SendMoney c6_tx_body) [9] []).2
      [c3_receipt] c3_su2 [] c6_sender hsucc rfl

/-! ## C8 — the mana-accounting receipt -/

/-- C8: after a receipt application that went through the normal composition,
a `ManaAccounting` receipt from the receipt receiver to
`accounting_info.originator` is appended exactly when the accumulated
`mana_refund > 0` or `gas_used > 0`; it is appended last, regardless of
whether the inner application succeeded or failed, and its nonce is
`H(receipt.nonce || u64(i))` where `i` is its position in the out-receipts
list.  The compensating receipts preceding it are only refunds and null
callbacks, never mana receipts. -/
theorem c8_mana_receipt_last (env : Env) (su : StateDbUpdate)
    (receipt : ReceiptTransaction) (nr : List ReceiptTransaction)
    (block_index : BlockIndex) (logs : List String)
    (result : Except String (List ReceiptTransaction)) (amount : Balance)
    (cbi : Option CallbackInfo) (rex : Bool) (su1 : StateDbUpdate)
    (ma : ManaAccounting) (logs1 : List String)
    (hcore : apply_receipt_core env su receipt block_index logs =
      some (.normal result amount cbi rex, su1, ma, logs1)) :
    ∃ pre res,
      apply_receipt env su receipt nr block_index logs =
        some (res, su1,
          pre ++ (if 0 < ma.mana_refund ∨ 0 < ma.gas_used then
            [{ originator := receipt.receiver,
               receiver := ma.accounting_info.originator,
               nonce := env.hashFn (receipt.nonce ++ index_to_bytes pre.length),
               body := .ManaAccounting ma }]
          else []), logs1) ∧
      (∀ rs, result = .ok rs → res = .ok () ∧ pre = nr ++ rs) ∧
      (∀ s, result = .error s → res = .error s ∧
        ∃ comp, pre = nr ++ comp ∧
          ∀ r ∈ comp, (∃ a, r.body = .Refund a) ∨
            (∃ c, r.body = .Callback c)) := by
  unfold apply_receipt
  rw [hcore]
  cases result with
  | ok rs =>
    refine ⟨nr ++ rs, .ok (), ?_, ?_, ?_⟩
    · by_cases hcond : 0 < ma.mana_refund ∨ 0 < ma.gas_used
      · simp [hcond, create_nonce_with_nonce]
      · simp [hcond]
    · intro rs2 h
      cases h
      exact ⟨rfl, rfl⟩
    · intro s h
      cases h
  | error s =>
    refine ⟨(if 0 < amount then
        nr ++ [{ originator := if rex then receipt.receiver else system_account,
                 receiver := receipt.originator,
                 nonce := create_nonce_with_nonce env receipt.nonce nr.length,
                 body := .Refund amount }]
      else nr) ++ (match cbi with
        | some info =>
          [{ originator := receipt.receiver,
             receiver := info.receiver,
             nonce := create_nonce_with_nonce env receipt.nonce
               (if 0 < amount then nr.length + 1 else nr.length),
             body := .Callback { info := info, result := none } }]
        | none => []), .error s, ?_, ?_, ?_⟩
    · by_cases ha : 0 < amount
      · cases cbi with
        | none =>
          by_cases hcond : 0 < ma.mana_refund ∨ 0 < ma.gas_used
          · simp [ha, hcond, create_nonce_with_nonce]
          · simp [ha, hcond]
        | some info =>
          by_cases hcond : 0 < ma.mana_refund ∨ 0 < ma.gas_used
          · simp [ha, hcond, create_nonce_with_nonce]
          · simp [ha, hcond]
      · cases cbi with
        | none =>
          by_cases hcond : 0 < ma.mana_refund ∨ 0 < ma.gas_used
          · simp [ha, hcond, create_nonce_with_nonce]
          · simp [ha, hcond]
        | some info =>
          by_cases hcond : 0 < ma.mana_refund ∨ 0 < ma.gas_used
          · simp [ha, hcond, create_nonce_with_nonce]
          · simp [ha, hcond]
    · intro rs h
      cases h
    · intro s2 h
      cases h
      refine ⟨rfl, ?_⟩
      by_cases ha : 0 < amount
      · cases cbi with
        | none =>
          refine ⟨_, by simp [ha]; rfl, ?_⟩
          intro r hr
          simp at hr
          rw [hr]
          exact Or.inl ⟨amount, rfl⟩
        | some info =>
          refine ⟨_, by simp [ha]; rfl, ?_⟩
          intro r hr
          simp at hr
          rcases hr with hr | hr
          · rw [hr]
            exact Or.inl ⟨amount, rfl⟩
          · rw [hr]
            exact Or.inr ⟨_, rfl⟩
      · cases cbi with
        | none =>
          refine ⟨[], by simp [ha], ?_⟩
          intro r hr
          cases hr
        | some info =>
          refine ⟨_, by simp [ha]; rfl, ?_⟩
          intro r hr
          simp at hr
          rw [hr]
          exact Or.inr ⟨_, rfl⟩

/-- Witness for C8: a failing async call with unused mana gets a trailing
`ManaAccounting` receipt. -/
theorem c8_mana_receipt_last_witness :
    (apply_receipt_core env0 c8_state c8_receipt 0 [] =
      some (.normal (.error "wasm async call preparation failed") 0 none true,
        c8_state, c8_ma, [])) ∧
    ∃ pre res,
      apply_receipt env0 c8_state c8_receipt [] 0 [] =
        some (res, c8_state,
          pre ++ (if 0 < c8_ma.mana_refund ∨ 0 < c8_ma.gas_used then
            [{ originator := c8_receipt.receiver,
               receiver := c8_ma.accounting_info.originator,
               nonce := env0.hashFn (c8_receipt.nonce ++ index_to_bytes pre.length),
               body := .ManaAccounting c8_ma }]
          else []), []) := by
  refine ⟨by rfl, ?_⟩
  obtain ⟨pre, res, h1, -, -⟩ := c8_mana_receipt_last env0 c8_state c8_receipt [] 0 []
    (.error "wasm async call preparation failed") 0 none true c8_state c8_ma []
    (by rfl)
  exact ⟨pre, res, h1⟩

/-! ## C4 — callback join lifecycle -/

/-- C4: for a `Callback` receipt applied to an existing callback record with
contract code present, the callback entry is deleted from state exactly when
writing the arriving result and incrementing the counter completes the join
(`result_counter + 1 = results.len()`), in which case the callback is
dispatched — including when the dispatch fails: then the staged changes are
rolled back and the deletion alone is committed.  If the join is still
incomplete, the updated record is persisted instead and no receipts are
produced. -/
theorem c4_callback_deleted_iff_complete (env : Env) (su : StateDbUpdate)
    (cr : CallbackResult) (sender_id receiver_id : AccountId)
    (nonce : CryptoHash) (receiver : Account) (block_index : BlockIndex)
    (logs : List String) (cb : Callback) (code : Bytes)
    (result : Except String (List ReceiptTransaction)) (su1 : StateDbUpdate)
    (ma : ManaAccounting) (logs1 : List String)
    (hcb : getCallback su cr.info.id = some cb)
    (hcode : getCode su receiver_id = some code)
    (hres : apply_callback env su cr sender_id receiver_id nonce receiver
      block_index logs = some (result, su1, ma, logs1)) :
    (getCallback su1 cr.info.id = none ↔
      cb.result_counter + 1 = cb.results.length) ∧
    (cb.result_counter + 1 ≠ cb.results.length →
      getCallback su1 cr.info.id =
        some { cb with
          results := cb.results.set cr.info.result_index cr.result
          result_counter := cb.result_counter + 1 } ∧
      result = .ok []) ∧
    (cb.result_counter + 1 = cb.results.length →
      ∀ e, env.execute code cb.method_name cb.args
          (cb.results.set cr.info.result_index cr.result)
          { balance := receiver.amount, received_amount := 0, sender_id,
            receiver_id, mana := cb.mana, block_index, nonce } = .error e →
        su1 = ((su.rollback).remove (.callback cr.info.id)).commit ∧
        ∃ msg, result = .error msg) := by
  unfold apply_callback at hres
  rw [hcode, hcb] at hres
  dsimp only at hres
  by_cases hidx : cr.info.result_index < cb.results.length
  case neg =>
    rw [if_neg hidx] at hres
    cases hres
  rw [if_pos hidx] at hres
  simp only [List.length_set] at hres
  by_cases hcomp : cb.result_counter + 1 = cb.results.length
  case neg =>
    rw [if_neg hcomp] at hres
    simp only [Option.some.injEq, Prod.mk.injEq] at hres
    obtain ⟨hr, hsu, -, -⟩ := hres
    refine ⟨?_, ?_, ?_⟩
    · rw [← hsu, getCallback_setCallback_same]
      simp [hcomp]
    · intro h
      rw [← hsu, getCallback_setCallback_same, ← hr]
      exact ⟨rfl, rfl⟩
    · intro h
      exact absurd h hcomp
  rw [if_pos hcomp] at hres
  cases hex : env.execute code cb.method_name cb.args
      (cb.results.set cr.info.result_index cr.result)
      { balance := receiver.amount, received_amount := 0, sender_id,
        receiver_id, mana := cb.mana, block_index, nonce } with
  | error e =>
    rw [hex] at hres
    simp only [Option.some.injEq, Prod.mk.injEq] at hres
    obtain ⟨hr, hsu, -, -⟩ := hres
    refine ⟨?_, ?_, ?_⟩
    · rw [← hsu, getCallback_commit, getCallback_remove_callback_same]
      simp [hcomp]
    · intro h
      exact absurd hcomp h
    · intro _ e2 _
      exact ⟨hsu.symm, _, hr.symm⟩
  | ok res =>
    rw [hex] at hres
    dsimp only at hres
    cases hrd : res.return_data with
    | error e =>
      rw [hrd] at hres
      simp only [Option.some.injEq, Prod.mk.injEq] at hres
      obtain ⟨hr, hsu, -, -⟩ := hres
      refine ⟨?_, ?_, ?_⟩
      · rw [← hsu, getCallback_commit, getCallback_remove_callback_same]
        simp [hcomp]
      · intro h
        exact absurd hcomp h
      · intro _ e2 he2
        exact absurd he2 (by simp)
    | ok rd =>
      rw [hrd] at hres
      dsimp only at hres
      cases hrtr : return_data_to_receipts env
          (applyExtWrites su receiver_id res.ext_writes)
          { receipts := res.ext_receipts, callbacks := res.ext_callbacks,
            nonce_base := nonce, nonce_counter := res.ext_nonce_counter }
          rd cb.callback sender_id receiver_id with
      | none =>
        rw [hrtr] at hres
        cases hres
      | some out =>
        rw [hrtr] at hres
        obtain ⟨outr, su2⟩ := out
        cases outr with
        | error e =>
          dsimp only at hres
          simp only [Option.some.injEq, Prod.mk.injEq] at hres
          obtain ⟨hr, hsu, -, -⟩ := hres
          refine ⟨?_, ?_, ?_⟩
          · rw [← hsu, getCallback_commit, getCallback_remove_callback_same]
            simp [hcomp]
          · intro h
            exact absurd hcomp h
          · intro _ e2 he2
            exact absurd he2 (by simp)
        | ok rs =>
          dsimp only at hres
          simp only [Option.some.injEq, Prod.mk.injEq] at hres
          obtain ⟨hr, hsu, -, -⟩ := hres
          refine ⟨?_, ?_, ?_⟩
          · rw [← hsu, getCallback_setAccount, getCallback_remove_callback_same]
            simp [hcomp]
          · intro h
            exact absurd hcomp h
          · intro _ e2 he2
            exact absurd he2 (by simp)

/-- Witness for C4: an incomplete join persists the updated record and
deletes nothing. -/
theorem c4_callback_deleted_iff_complete_witness :
    getCallback c4_state c4_cr.info.id = some c4_callback ∧
    getCode c4_state "bob.near" = some [1] ∧
    ∃ su1,
      apply_callback env0 c4_state c4_cr "alice.near" "bob.near" [4] c8_account 0 [] =
        some (.ok [], su1, ManaAccounting.default, []) ∧
      getCallback su1 c4_cr.info.id =
        some { c4_callback with results := [some [9], none], result_counter := 1 } := by
  refine ⟨rfl, rfl, ?_⟩
  have hres : apply_callback env0 c4_state c4_cr "alice.near" "bob.near" [4]
      c8_account 0 [] =
      some (.ok [],
        setCallback c4_state [5]
          { c4_callback with results := [some [9], none], result_counter := 1 },
        ManaAccounting.default, []) := by rfl
  have h := (c4_callback_deleted_iff_complete env0 c4_state c4_cr "alice.near"
    "bob.near" [4] c8_account 0 [] c4_callback [1] (.ok []) _
    ManaAccounting.default [] rfl rfl hres).2.1 (by decide)
  exact ⟨_, hres, h.1⟩

/-! ## C5 — compensating receipts on receipt failure -/

/-- Rolling back a state that was only staged upon returns the original
state (when nothing was pending in it). -/
theorem rollback_eq_of_stagesOnly {su su2 : StateDbUpdate}
    (h : StagesOnly su su2) (hs : su.staged = []) : su2.rollback = su := by
  cases su with
  | mk b c s =>
    cases su2 with
    | mk b2 c2 s2 =>
      have hb : b2 = b := h.1
      have hc : c2 = c := h.2
      have hs2 : s = [] := hs
      simp [StateDbUpdate.rollback, hb, hc, hs2]

/-- Rolling back a state whose committed overlay gained one entry yields the
original state with exactly that extra committed entry. -/
theorem rollback_eq_committed {su su2 : StateDbUpdate}
    {entry : StateKey × Option StateValue}
    (hb : su2.base = su.base) (hc : su2.committed = entry :: su.committed)
    (hs : su.staged = []) :
    su2.rollback = { su with committed := entry :: su.committed } := by
  cases su with
  | mk b c s =>
    cases su2 with
    | mk b2 c2 s2 =>
      have hb2 : b2 = b := hb
      have hc2 : c2 = entry :: c := hc
      have hs2 : s = [] := hs
      simp [StateDbUpdate.rollback, hb2, hc2, hs2]

/-- C2 counterexample: processing inside `apply` a callback receipt whose
join completes and whose dispatch fails yields a `Failed` per-input result,
yet the post-state is NOT the state obtained by skipping the input: the
stored callback entry has been deleted (its committed deletion survives the
rollback). -/
theorem c2_counterexample_failed_input_mutates :
    ((apply env0 c2_base 0 0 [c2_receipt] []).map
      (fun r => (r.tx_result.map (fun t => t.status),
                 r.state.finalizeGet (.callback [5])))) =
      some ([.Failed], none) ∧
    ((apply env0 c2_base 0 0 [] []).map
      (fun r => r.state.finalizeGet (.callback [5]))) =
      some (some (.callback c2_callback)) :=
  ⟨by rfl, by rfl⟩

/-- C2 as amended: a failing transaction leaves the state exactly as it was,
and a failing receipt does so too — except that a failing `Callback` receipt
may additionally carry the committed deletion of its callback entry (the
rollback-then-commit in `apply_callback`); no other stored entry ever changes
on a failing input. -/
theorem c2_rollback_isolation_amended :
    (∀ (env : Env) (su : StateDbUpdate) (block_index : BlockIndex)
       (tx : SignedTransaction) (nr : ReceiptMap) (props : List AuthorityStake)
       (tr : TransactionResult) (su1 : StateDbUpdate) (m1 : ReceiptMap)
       (p1 : List AuthorityStake),
      process_transaction env su block_index tx nr props = some (tr, su1, m1, p1) →
      tr.status = .Failed → su.staged = [] → su1 = su) ∧
    (∀ (env : Env) (su : StateDbUpdate) (shard_id : ShardId)
       (block_index : BlockIndex) (receipt : ReceiptTransaction)
       (nr : ReceiptMap) (tr : TransactionResult) (su1 : StateDbUpdate)
       (m1 : ReceiptMap),
      process_receipt env su shard_id block_index receipt nr = some (tr, su1, m1) →
      tr.status = .Failed → su.staged = [] →
      su1 = su ∨ ∃ cr, receipt.body = .Callback cr ∧
        su1 = { su with
          committed := (StateKey.callback cr.info.id, none) :: su.committed }) := by
  constructor
  · intro env su block_index tx nr props tr su1 m1 p1 h hF hs
    unfold process_transaction at h
    split at h
    · cases h
    · cases h
      simp at hF
    · cases h
      exact rollback_eq_of_stagesOnly
        (stagesOnly_apply_signed_transaction _ _ _ _ _ _ (by assumption)) hs
  · intro env su shard_id block_index receipt nr tr su1 m1 h hF hs
    unfold process_receipt at h
    split at h
    · split at h
      · cases h
      · dsimp only at h
        split at h
        · cases h
          simp at hF
        · cases h
          rcases apply_receipt_committed _ _ _ _ _ _ _ (by assumption) with
            hso | ⟨cr, hbody, hb, hc, hsx⟩
          · exact Or.inl (rollback_eq_of_stagesOnly hso hs)
          · exact Or.inr ⟨cr, hbody, rollback_eq_committed hb hc hs⟩
    · cases h
      exact Or.inl rfl

/-- Witness for the amended C2 at a concrete input: a receipt routed to the
wrong shard fails and the state is exactly unchanged. -/
theorem c2_rollback_isolation_amended_witness :
    (process_receipt env0 (StateDbUpdate.new c2_base) 1 0 c2_receipt [] =
      some ({ status := .Failed,
              logs := ["receipt sent to the wrong shard"],
              receipts := [] }, StateDbUpdate.new c2_base, [])) ∧
    (StateDbUpdate.new c2_base).staged = [] ∧
    (StateDbUpdate.new c2_base = StateDbUpdate.new c2_base ∨
     ∃ cr, c2_receipt.body = .Callback cr ∧
       StateDbUpdate.new c2_base =
         { StateDbUpdate.new c2_base with
           committed := (StateKey.callback cr.info.id, none) ::
             (StateDbUpdate.new c2_base).committed }) := by
  refine ⟨by rfl, rfl, ?_⟩
  exact (c2_rollback_isolation_amended).2 env0 (StateDbUpdate.new c2_base) 1 0
    c2_receipt [] _ _ _ (by rfl) rfl rfl

end NearRuntime
